import Mathlib

/-!
Verification development for the `genEM3` wkw dataset engine
(`src/genEM3/data/wkwdata.py`, class `WkwData`).

The Python code is shallowly embedded below.  Conventions used throughout:

* machine integers are modeled as `Int`/`Nat` (all quantities involved are
  small Python ints, no overflow is possible);
* Python floats that only ever hold integers-divided-by-two etc. are modeled
  exactly; fractional split specifications are modeled as `ℚ` (the dyadic
  rationals used in concrete statements are exactly representable as floats,
  so the model and CPython agree on them);
* numpy arrays are modeled as `NDArr`: an explicit shape together with a
  total valuation on integer multi-indices (out-of-range indices give junk
  and are never relied upon; claims compare arrays only inside their shape);
* code that can raise is modeled in `Except String`;
* `str(bbox)` cache keys: `str` is injective on lists of ints, so the model
  keys caches directly by the bounding box value;
* the wkw store (an external collaborator per the spec) is an opaque map
  from path, channel and absolute voxel coordinate to a value; `wkw.Dataset`
  reads return channel-first 4-d arrays, as the spec states.
-/

namespace GenEM3

/-- Triple of integer coordinates (x, y, z), as used for shapes, strides and
bounding-box origins/extents in `wkwdata.py` (bboxes are 6-element Python
lists `[ox, oy, oz, ex, ey, ez]`). -/
structure V3 where
  x : Int
  y : Int
  z : Int
deriving DecidableEq, Repr

/-- Bounding box: origin plus extent, the model of the 6-element Python list. -/
structure BBox where
  origin : V3
  extent : V3
deriving DecidableEq, Repr

/-- The `DataSource` namedtuple of `wkwdata.py` (fields used by the engine;
`target_class` is modeled as a scalar value, `target_binary` as the int the
code compares against `1`). -/
structure DataSource where
  id : String
  input_path : String
  input_bbox : BBox
  input_mean : ℚ
  input_std : ℚ
  target_path : String
  target_bbox : BBox
  target_class : ℚ
  target_binary : Int
deriving DecidableEq, Repr

/-- Placeholder data source returned by out-of-range list accesses in the
model; never reached by any theorem's hypotheses. -/
def dfltSource : DataSource :=
  { id := "", input_path := "", input_bbox := ⟨⟨0,0,0⟩, ⟨0,0,0⟩⟩,
    input_mean := 0, input_std := 1, target_path := "",
    target_bbox := ⟨⟨0,0,0⟩, ⟨0,0,0⟩⟩, target_class := 0, target_binary := 0 }

/-- The element `srcs[k]` (`self.data_sources[source_idx]`). -/
def getSrc (srcs : List DataSource) (k : Nat) : DataSource :=
  srcs.getD k dfltSource

/-- Constructor state of `WkwData.__init__` that the claims depend on.
`stride` is the resolved stride (the constructor defaults it to
`target_shape` when `None` is passed). `hasTransforms` models the truthiness
of `self.transforms`. -/
structure Config where
  input_shape : V3
  output_shape : V3
  stride : V3
  normalize : Bool
  hasTransforms : Bool
  pad_target : Bool
  cache_RAM : Bool
  cache_HDD : Bool
  cache_HDD_root : String

/-- Role of a window: the `source_type in ('input', 'target')` strings of the
Python code, replaced by a tagged variant. -/
inductive Role where
  | input : Role
  | target : Role
deriving DecidableEq, Repr

/-! ### Coordinate grid builder (`WkwData.get_data_mesh`) -/

/-- Number of elements of `np.arange(start, stop, step)`:
`max(0, ceil((stop - start) / step))`.  A zero step is a numpy error and is
modeled as an empty range (no call site passes it; the claims about grids
hypothesize a positive stride). -/
def arangeLen (start stop step : Int) : Nat :=
  if 0 < step then (Int.fdiv (stop - start + step - 1) step).toNat
  else if step < 0 then (Int.fdiv (start - stop - step - 1) (-step)).toNat
  else 0

/-- The list `np.arange(start, stop, step)` (over integers). -/
def arange (start stop step : Int) : List Int :=
  (List.range (arangeLen start stop step)).map (fun i : Nat => start + (i : Int) * step)

/-- `corner_min` of `get_data_mesh`:
`np.floor(origin + window / 2)` for integer `origin` and `window` equals
`origin + ⌊window / 2⌋` (floor division). -/
def cornerMin (origin window : Int) : Int :=
  origin + Int.fdiv window 2

/-- `n_fits` of `get_data_mesh`:
`np.floor((extent - window) / stride) + 1`, with floor division. -/
def nFits (ext window stride : Int) : Int :=
  Int.fdiv (ext - window) stride + 1

/-- Per-axis center coordinates emitted by `get_data_mesh`:
`np.arange(corner_min, corner_max + stride, stride)` with
`corner_max = corner_min + (n_fits - 1) * stride`. -/
def axisCoords (origin ext window stride : Int) : List Int :=
  arange (cornerMin origin window)
    (cornerMin origin window + (nFits ext window stride - 1) * stride + stride)
    stride

/-- The x-axis coordinate list of a source's mesh (built from the source's
`input_bbox` and the dataset's `input_shape` and `stride`, exactly as
`get_data_mesh` does). -/
def meshX (cfg : Config) (src : DataSource) : List Int :=
  axisCoords src.input_bbox.origin.x src.input_bbox.extent.x cfg.input_shape.x cfg.stride.x

/-- The y-axis coordinate list of a source's mesh. -/
def meshY (cfg : Config) (src : DataSource) : List Int :=
  axisCoords src.input_bbox.origin.y src.input_bbox.extent.y cfg.input_shape.y cfg.stride.y

/-- The z-axis coordinate list of a source's mesh. -/
def meshZ (cfg : Config) (src : DataSource) : List Int :=
  axisCoords src.input_bbox.origin.z src.input_bbox.extent.z cfg.input_shape.z cfg.stride.z

/-- Shape of the meshgrid arrays `xm, ym, zm = np.meshgrid(x, y, z)`:
numpy's default `indexing='xy'` gives shape `(len(y), len(x), len(z))`. -/
def meshShape (cfg : Config) (src : DataSource) : List Nat :=
  [(meshY cfg src).length, (meshX cfg src).length, (meshZ cfg src).length]

/-- `self.data_meshes[i]['target']['x'].size`: total number of grid cells of
one source. -/
def meshSize (cfg : Config) (src : DataSource) : Nat :=
  (meshShape cfg src).prod

/-! ### Index translator (`get_data_ind_ranges`, `get_source_mesh_for_sample_idx`) -/

/-- The loop of `get_data_ind_ranges`: the first source starts at the running
minimum, each `max` is `min + size - 1`, and the next `min` is the previous
`max + 1` (equivalently the previous `min + size`). -/
def buildRanges : Int → List Nat → List (Int × Int)
  | _, [] => []
  | m, s :: ss => (m, m + (s : Int) - 1) :: buildRanges (m + (s : Int)) ss

/-- `(self.data_inds_min, self.data_inds_max)` zipped, starting at 0. -/
def dataIndRanges (cfg : Config) (srcs : List DataSource) : List (Int × Int) :=
  buildRanges 0 (srcs.map (meshSize cfg))

/-- `self.data_inds_min`. -/
def dataIndsMin (cfg : Config) (srcs : List DataSource) : List Int :=
  (dataIndRanges cfg srcs).map Prod.fst

/-- `self.data_inds_max`. -/
def dataIndsMax (cfg : Config) (srcs : List DataSource) : List Int :=
  (dataIndRanges cfg srcs).map Prod.snd

/-- `len(self) = self.data_inds_max[-1] + 1` (indexing `[-1]` on an empty
list is a Python error; the model returns `0` there, and every claim about
lengths hypothesizes a non-empty source list). -/
def datasetLen (cfg : Config) (srcs : List DataSource) : Int :=
  (dataIndsMax cfg srcs).getLastD (-1) + 1

/-- `np.argmax(np.asarray(self.data_inds_max) >= int(sample_idx))`:
index of the first `True`; numpy's `argmax` returns `0` when no entry is
`True`. -/
def argmaxGe (maxs : List Int) (idx : Int) : Nat :=
  let k := maxs.findIdx (fun m => decide (idx ≤ m))
  if k < maxs.length then k else 0

/-- Helper for `np.unravel_index` (row-major): digits of `i`, least
significant axis first, over the reversed dimension list. -/
def unravelRev : Nat → List Nat → List Nat
  | _, [] => []
  | i, d :: ds => (i % d) :: unravelRev (i / d) ds

/-- `np.unravel_index(i, dims)` with C (row-major) order.  numpy raises for
`i ≥ prod dims`; the model wraps instead, and every use is in range. -/
def unravelIdx (i : Nat) (dims : List Nat) : List Nat :=
  (unravelRev i dims.reverse).reverse

/-- Helper for `np.ravel_multi_index` over reversed lists. -/
def ravelRev : List Nat → List Nat → Nat
  | [], _ => 0
  | _, [] => 0
  | i :: is, d :: ds => i + d * ravelRev is ds

/-- `np.ravel_multi_index(ix, dims)` with C (row-major) order: the flat
position of the multi-index `ix` in a row-major array of shape `dims`. -/
def ravelIdx (ix dims : List Nat) : Nat :=
  ravelRev ix.reverse dims.reverse

/-- `WkwData.get_source_mesh_for_sample_idx`: the owning source index (via
`argmax` over `data_inds_max >= idx`) and the row-major grid-cell subscript
(`np.unravel_index(idx - data_inds_min[k], mesh_shape)`). -/
def getSourceMesh (cfg : Config) (srcs : List DataSource) (idx : Int) : Nat × List Nat :=
  let maxs := dataIndsMax cfg srcs
  let k := argmaxGe maxs idx
  let mins := dataIndsMin cfg srcs
  (k, unravelIdx (idx - mins.getD k 0).toNat (meshShape cfg (getSrc srcs k)))

/-- `np.floor(shape / 2)` for a non-negative integer `shape`, and also the
floor-division used in `pad`. -/
def floorHalf (n : Int) : Int := Int.fdiv n 2

/-- `WkwData.get_bbox_for_sample_idx`: resolve the owning source and the grid
cell, read the window center off the mesh arrays (`xm[i,j,k] = x[j]`,
`ym[i,j,k] = y[i]`, `zm[i,j,k] = z[k]` for numpy's `'xy'`-indexed meshgrid of
shape `(len(y), len(x), len(z))`), and return
`origin = center - floor(shape/2)`, `extent = shape`. -/
def getBboxForSampleIdx (cfg : Config) (srcs : List DataSource) (idx : Int)
    (role : Role) : Nat × BBox :=
  let km := getSourceMesh cfg srcs idx
  let k := km.1
  let mix := km.2
  let shape := if role = Role.input then cfg.input_shape else cfg.output_shape
  let src := getSrc srcs k
  let cx := (meshX cfg src).getD (mix.getD 1 0) 0
  let cy := (meshY cfg src).getD (mix.getD 0 0) 0
  let cz := (meshZ cfg src).getD (mix.getD 2 0) 0
  (k, ⟨⟨cx - floorHalf shape.x, cy - floorHalf shape.y, cz - floorHalf shape.z⟩,
       ⟨shape.x, shape.y, shape.z⟩⟩)

/-! ### Arrays and the wkw store -/

/-- Model of a numpy array: an explicit shape plus a total valuation on
integer multi-indices.  Only in-shape indices are meaningful; all array
constructors below return `0` for malformed index lists and claims compare
arrays only inside their shape. -/
structure NDArr where
  shape : List Nat
  val : List Int → ℚ

/-- Is the multi-index inside the shape (each component in `[0, dim)` and the
lengths agree)? -/
def inShape : List Nat → List Int → Bool
  | [], [] => true
  | d :: ds, i :: is => (decide (0 ≤ i) && decide (i < (d : Int))) && inShape ds is
  | _, _ => false

/-- Extensional equality of arrays: same shape and voxel-identical inside
that shape. -/
def NDArr.eqv (a b : NDArr) : Prop :=
  a.shape = b.shape ∧ ∀ ix, inShape a.shape ix = true → a.val ix = b.val ix

/-- The external wkw store (spec §6): an opaque map from path, channel and
absolute voxel coordinate to a value, with a fixed channel count.
`wkw.Dataset.read` returns channel-first 4-d arrays. -/
structure Store where
  nch : Nat
  val : String → Nat → V3 → ℚ

/-- `WkwData.wkw_read(path, bbox)`: `w.read(bbox[0:3], bbox[3:6])`, a dense
channel-first array covering exactly the bbox. -/
def wkwRead (store : Store) (path : String) (bb : BBox) : NDArr :=
  { shape := [store.nch, bb.extent.x.toNat, bb.extent.y.toNat, bb.extent.z.toNat],
    val := fun ix =>
      match ix with
      | [c, x, y, z] =>
          if 0 ≤ c ∧ c < (store.nch : Int) then
            store.val path c.toNat ⟨bb.origin.x + x, bb.origin.y + y, bb.origin.z + z⟩
          else 0
      | _ => 0 }

/-! ### Cache manager (`fill_cache`, `wkw_read_cached`, `assert_data_completeness`) -/

/-- `self.data_cache_input`: dict from path to dict from `str(bbox)` to
array (`str` is injective on int lists, so the inner key is the bbox). -/
def RamCache := String → Option (BBox → Option NDArr)

/-- Disk-tier cache: which cache paths have a `header.wkw`, plus the stored
voxel data viewed as a wkw store. -/
structure DiskState where
  header : String → Bool
  store : Store

/-- `os.path.join(self.cache_HDD_root, wkw_path[1::])`. -/
def hddPath (cfg : Config) (p : String) : String :=
  cfg.cache_HDD_root ++ "/" ++ (p.drop 1)

/-- Path field selected by `source_type + '_path'` in `wkw_read_cached`. -/
def rolePath (src : DataSource) (role : Role) : String :=
  if role = Role.input then src.input_path else src.target_path

/-- Bbox field selected by `source_type + '_bbox'` in `wkw_read_cached`. -/
def roleBBox (src : DataSource) (role : Role) : BBox :=
  if role = Role.input then src.input_bbox else src.target_bbox

/-- Python-dict insert for the RAM cache:
`cache[path] = {str(bbox): data}` when the path is absent, else
`cache[path][str(bbox)] = data`. -/
def ramInsert (ram : RamCache) (path : String) (bb : BBox) (data : NDArr) : RamCache :=
  fun p =>
    if p = path then
      some (fun b =>
        if b = bb then some data
        else match ram path with
          | some inner => inner b
          | none => none)
    else ram p

/-- Does `(List.range n)` contain an index satisfying `p`?  Used to express
`np.any` over one array axis. -/
def rangeAny (n : Nat) (p : Nat → Bool) : Bool :=
  (List.range n).any p

/-- Is some voxel on the face `axis1 = xi` (an x-slice, all channels) of a
4-d array non-zero?  (`np.any(data[:, xi, :, :])`). -/
def anyFaceX (a : NDArr) (c y z : Nat) (xi : Int) : Bool :=
  rangeAny c (fun ci =>
    rangeAny y (fun yi =>
      rangeAny z (fun zi => decide (a.val [(ci : Int), xi, (yi : Int), (zi : Int)] ≠ 0))))

/-- Non-zero test for the face `axis2 = yi` (`np.any(data[:, :, yi, :])`). -/
def anyFaceY (a : NDArr) (c x z : Nat) (yi : Int) : Bool :=
  rangeAny c (fun ci =>
    rangeAny x (fun xi =>
      rangeAny z (fun zi => decide (a.val [(ci : Int), (xi : Int), yi, (zi : Int)] ≠ 0))))

/-- Non-zero test for the face `axis3 = zi` (`np.any(data[:, :, :, zi])`). -/
def anyFaceZ (a : NDArr) (c x y : Nat) (zi : Int) : Bool :=
  rangeAny c (fun ci =>
    rangeAny x (fun xi =>
      rangeAny y (fun yi => decide (a.val [(ci : Int), (xi : Int), (yi : Int), zi] ≠ 0))))

/-- `WkwData.assert_data_completeness(data)`: `True` iff each of the six
bounding faces of the (channel-first 4-d) cube holds at least one non-zero
voxel.  The function is only ever called on 4-d reads; other ranks are
modeled as incomplete. -/
def assertDataCompleteness (a : NDArr) : Bool :=
  match a.shape with
  | [c, x, y, z] =>
      anyFaceX a c y z 0 && anyFaceX a c y z ((x : Int) - 1) &&
      anyFaceY a c x z 0 && anyFaceY a c x z ((y : Int) - 1) &&
      anyFaceZ a c x y 0 && anyFaceZ a c x y ((z : Int) - 1)
  | _ => false

/-- Is the coordinate inside the bbox? -/
def inBBox (v : V3) (bb : BBox) : Bool :=
  decide (bb.origin.x ≤ v.x) && decide (v.x < bb.origin.x + bb.extent.x) &&
  decide (bb.origin.y ≤ v.y) && decide (v.y < bb.origin.y + bb.extent.y) &&
  decide (bb.origin.z ≤ v.z) && decide (v.z < bb.origin.z + bb.extent.z)

/-- `wkw_create` + `wkw_write(wkw_cache_path, wkw_bbox, data)` on the disk
cache: ensure the header exists and overwrite the voxels of the bbox region
with `data` (indexed relative to the bbox origin). -/
def writeDisk (disk : DiskState) (cp : String) (bb : BBox) (data : NDArr) : DiskState :=
  { header := fun p => if p = cp then true else disk.header p,
    store :=
      { nch := disk.store.nch,
        val := fun p c v =>
          if p = cp ∧ inBBox v bb then
            data.val [(c : Int), v.x - bb.origin.x, v.y - bb.origin.y, v.z - bb.origin.z]
          else disk.store.val p c v } }

/-- Result of one `fill_cache` call.  `refetched` is ghost instrumentation
recording whether the disk-tier cube existed but failed the completeness
check and the data was re-read from the authoritative source (observable in
the real program as an extra read of the source store). -/
structure FillResult where
  data : NDArr
  refetched : Bool
  ram : RamCache
  disk : DiskState

/-- `WkwData.fill_cache(wkw_path, wkw_bbox)`:
read from the disk tier when enabled and present, re-fetch from the
authoritative source when the completeness check fails (or when there is no
disk entry), then populate the RAM and disk tiers according to the flags.
The function raises nothing. -/
def fillCache (cfg : Config) (store : Store) (disk : DiskState) (ram : RamCache)
    (path : String) (bb : BBox) : FillResult :=
  let cp := hddPath cfg path
  let hdr := cfg.cache_HDD && disk.header cp
  let diskData := wkwRead disk.store cp bb
  let data :=
    if hdr then (if assertDataCompleteness diskData then diskData else wkwRead store path bb)
    else wkwRead store path bb
  let ram2 := if cfg.cache_RAM then ramInsert ram path bb data else ram
  let disk2 := if cfg.cache_HDD then writeDisk disk cp bb data else disk
  { data := data,
    refetched := hdr && ! assertDataCompleteness diskData,
    ram := ram2,
    disk := disk2 }

/-- The sub-array `cube[:, r0:r0+e0, r1:r1+e1, r2:r2+e2]` taken in
`wkw_read_cached` (valid for non-negative `rel` and a requested bbox inside
the cached cube; Python fancy clamping/wrapping outside that domain is not
modeled and no claim relies on it). -/
def sliceArr (a : NDArr) (rel : V3) (ext : V3) : NDArr :=
  { shape := [a.shape.headD 0, ext.x.toNat, ext.y.toNat, ext.z.toNat],
    val := fun ix =>
      match ix with
      | [c, x, y, z] => a.val [c, rel.x + x, rel.y + y, rel.z + z]
      | _ => 0 }

/-- `WkwData.wkw_read_cached(source_idx, source_type, wkw_bbox)`.
The memory-tier test is
`(wkw_path in self.data_cache_input) & (str(abs_pos) in self.data_cache_input[wkw_path])`:
`&` does not short-circuit, so the right operand's indexing raises `KeyError`
whenever the path is absent from the memory cache. -/
def wkwReadCached (cfg : Config) (srcs : List DataSource) (store : Store)
    (disk : DiskState) (ram : RamCache) (k : Nat) (role : Role) (bb : BBox) :
    Except String NDArr :=
  let src := getSrc srcs k
  let path := rolePath src role
  let absPos := roleBBox src role
  match ram path with
  | none => .error "KeyError"
  | some inner =>
    match inner absPos with
    | some cube =>
        .ok (sliceArr cube
          ⟨bb.origin.x - absPos.origin.x, bb.origin.y - absPos.origin.y,
           bb.origin.z - absPos.origin.z⟩ bb.extent)
    | none =>
        if disk.header (hddPath cfg path) then
          .ok (wkwRead disk.store (hddPath cfg path) bb)
        else
          .ok (wkwRead store path bb)

/-! ### Sample assembler (`get_ordered_sample`, `pad`, `normalize`) -/

/-- `WkwData.normalize(data, mean, std) = (data - mean) / std`, pointwise. -/
def normalizeArr (a : NDArr) (mean std : ℚ) : NDArr :=
  { shape := a.shape, val := fun ix => (a.val ix - mean) / std }

/-- `tensor.squeeze(3)`: drop axis 3 (only called when it is a singleton). -/
def squeezeAx3 (a : NDArr) : NDArr :=
  { shape := a.shape.take 3, val := fun ix => a.val (ix ++ [0]) }

/-- The conditional squeeze of `get_ordered_sample`:
`if shape_z == 1 and t.dim() > 3 and t.shape[3] == 1: t = t.squeeze(3)`. -/
def maybeSqueeze (shapeZ : Int) (a : NDArr) : NDArr :=
  if shapeZ = 1 ∧ 3 < a.shape.length ∧ a.shape.getD 3 0 = 1 then squeezeAx3 a else a

/-- In-range test for `np.pad` output indices: each component lies in
`[w_i, w_i + d_i)` where `d` is the original shape. -/
def padInR : List Nat → List Int → List Int → Bool
  | [], [], [] => true
  | d :: ds, wi :: ws, i :: is =>
      (decide (wi ≤ i) && decide (i < wi + (d : Int))) && padInR ds ws is
  | _, _, _ => false

/-- `np.pad(a, [(w0,w0),(w1,w1),(w2,w2)], 'constant')`.  numpy broadcasts the
pad-width argument to shape `(a.ndim, 2)`: three pairs on an array whose rank
is not 3 raise `ValueError`, as does a negative width. -/
def padArr (w : List Int) (a : NDArr) : Except String NDArr :=
  if w.length = a.shape.length then
    if w.all (fun x => decide (0 ≤ x)) then
      .ok { shape := List.zipWith (fun d wi => d + 2 * wi.toNat) a.shape w,
            val := fun ix =>
              if padInR a.shape w ix then a.val (List.zipWith (fun i wi => i - wi) ix w)
              else 0 }
    else .error "ValueError: index can't contain negative values"
  else .error "ValueError: unable to broadcast pad width to array rank"

/-- Per-axis pad widths of `WkwData.pad`:
`np.floor((input_shape - output_shape) / 2)`. -/
def padWidths (cfg : Config) : List Int :=
  [floorHalf (cfg.input_shape.x - cfg.output_shape.x),
   floorHalf (cfg.input_shape.y - cfg.output_shape.y),
   floorHalf (cfg.input_shape.z - cfg.output_shape.z)]

/-- `WkwData.pad(target)`: `np.pad` with the three symmetric per-axis widths
above (whatever the rank of `target` is). -/
def wkwPad (cfg : Config) (t : NDArr) : Except String NDArr :=
  padArr (padWidths cfg) t

/-- One assembled sample: `{'input': ..., 'target': ..., 'sample_idx': ...}`. -/
structure Sample where
  input : NDArr
  target : NDArr
  sample_idx : Nat

/-- The window read of `get_ordered_sample` for one role: through
`wkw_read_cached` when either cache tier is enabled
(`if self.cache_RAM | self.cache_HDD`), else a direct `wkw_read` of the
role's path. -/
def readRole (cfg : Config) (srcs : List DataSource) (store : Store)
    (disk : DiskState) (ram : RamCache) (k : Nat) (role : Role) (bb : BBox) :
    Except String NDArr :=
  if cfg.cache_RAM || cfg.cache_HDD then
    wkwReadCached cfg srcs store disk ram k role bb
  else .ok (wkwRead store (rolePath (getSrc srcs k) role) bb)

/-- Tail of `get_ordered_sample` in the self-supervised case
(`input_path == target_path and bbox_input == bbox_target`): the target is
`np.asarray(input_)` — a copy of the already transformed input — optionally
padded, then squeezed when the configured target depth is a singleton; the
target transform is *not* applied (`inputSameAsOutput` is set). -/
def assembleSameTarget (cfg : Config) (inp : NDArr) (idx : Nat) : Except String Sample :=
  match (if cfg.pad_target then wkwPad cfg inp else Except.ok inp) with
  | .error e => .error e
  | .ok t1 =>
      .ok { input := inp, target := maybeSqueeze cfg.output_shape.z t1, sample_idx := idx }

/-- `WkwData.get_ordered_sample(sample_idx)` with `normalize=None` (so the
instance flag decides).  Randomness of `self.transforms` is modeled by two
explicit draws: `tf1` is the draw the code would apply at the input
transform site, `tf2` the draw at the target transform site; a run that
never reaches a site never consults its draw. -/
def getOrderedSample (cfg : Config) (srcs : List DataSource) (store : Store)
    (disk : DiskState) (ram : RamCache) (trainInds : List Nat)
    (tf1 tf2 : NDArr → NDArr) (idx : Nat) : Except String Sample := do
  let kb := getBboxForSampleIdx cfg srcs (idx : Int) Role.input
  let k := kb.1
  let bbI := kb.2
  let src := getSrc srcs k
  let raw ← readRole cfg srcs store disk ram k Role.input bbI
  let ninp := if cfg.normalize then normalizeArr raw src.input_mean src.input_std else raw
  let sq := maybeSqueeze cfg.input_shape.z ninp
  let inp := if cfg.hasTransforms && trainInds.contains idx then tf1 sq else sq
  let kb2 := getBboxForSampleIdx cfg srcs (idx : Int) Role.target
  let k2 := kb2.1
  let bbT := kb2.2
  let src2 := getSrc srcs k2
  if src2.target_binary = 1 then
    let t0 : NDArr := { shape := [], val := fun _ => src2.target_class }
    let t1 ← if cfg.pad_target then wkwPad cfg t0 else .ok t0
    return { input := inp, target := t1, sample_idx := idx }
  else
    if src2.input_path = src2.target_path ∧ bbI = bbT then
      assembleSameTarget cfg inp idx
    else
      let t0 ← readRole cfg srcs store disk ram k2 Role.target bbT
      let t1 ← if cfg.pad_target then wkwPad cfg t0 else .ok t0
      let t2 := maybeSqueeze cfg.output_shape.z t1
      let t3 := if cfg.hasTransforms then tf2 t2 else t2
      return { input := inp, target := t3, sample_idx := idx }

/-! ### Split planner (`get_data_ind_splits`) -/

/-- Python `int()` applied to a rational: truncation toward zero. -/
def pyInt (q : ℚ) : Int :=
  if 0 ≤ q then ⌊q⌋ else ⌈q⌉

/-- Fraction-mode branch of `WkwData.get_data_ind_splits`.  The seeded
`np.random.permutation` of `range(N)` is passed in explicitly as `perm`
(the claims quantify over, or instantiate, that permutation).  Cut points
are `int(frac * N)` accumulated as in the code; the slices of the shuffled
index list form the three splits; a single leftover index is appended to
train, more than one raises, and the final length assertion is checked. -/
def splitFractions (trF vaF teF : ℚ) (perm : List Nat) (N : Nat) :
    Except String (List Nat × List Nat × List Nat) :=
  let tmax := (pyInt (trF * N)).toNat
  let vmax := tmax + (pyInt (vaF * N)).toNat
  let smax := vmax + (pyInt (teF * N)).toNat
  let trainL := perm.take tmax
  let valL := (perm.drop tmax).take (vmax - tmax)
  let testL := (perm.drop vmax).take (smax - vmax)
  let combined := trainL ++ valL ++ testL
  let leftover := (List.range N).filter (fun i => decide (i ∉ combined))
  if 1 < leftover.length then
    .error "more than one index left behind in splitting the data into train, val and test"
  else
    let trainL2 := if leftover.length = 1 then trainL ++ leftover else trainL
    if (N : Int) = ((trainL2 ++ valL ++ testL).dedup.length : Int) then
      .ok (trainL2, valL, testL)
    else .error "Length check for the splits failed"

/-- `datasource_id_to_idx`: `list.index(id)` raises `ValueError` when the id
is not present. -/
def datasourceIdToIdx (srcs : List DataSource) (id : String) : Except String Nat :=
  let k := srcs.findIdx (fun s => s.id = id)
  if k < srcs.length then .ok k else .error "ValueError"

/-- Strata-mode branch: concatenate `range(min_idx, max_idx + 1)` for each
listed source id. -/
def strataInds (cfg : Config) (srcs : List DataSource) (ids : List String) :
    Except String (List Int) :=
  ids.foldlM
    (fun acc id => do
      let k ← datasourceIdToIdx srcs id
      return acc ++ (List.range (((dataIndsMax cfg srcs).getD k 0 + 1 -
          (dataIndsMin cfg srcs).getD k 0).toNat)).map
        (fun i => (dataIndsMin cfg srcs).getD k 0 + (i : Int)))
    []

/-- A `DataSplit` argument: floats (fraction mode) or id lists (strata). -/
inductive SplitSpec where
  | fractions : ℚ → ℚ → ℚ → SplitSpec
  | strata : List String → List String → List String → SplitSpec

/-- The constructor work of `WkwData.__init__` relevant to the claims:
building the meshes and index ranges (which raise nothing) followed by the
optional split.  Cache filling, also optional, is modeled separately by
`fillCache` and raises nothing either. -/
def initWkwData (cfg : Config) (srcs : List DataSource) (split : Option SplitSpec)
    (perm : List Nat) : Except String (List (Int × Int)) := do
  let ranges := dataIndRanges cfg srcs
  match split with
  | none => return ranges
  | some (SplitSpec.fractions a b c) =>
      let _ ← splitFractions a b c perm (datasetLen cfg srcs).toNat
      return ranges
  | some (SplitSpec.strata tr va te) =>
      let _ ← strataInds cfg srcs tr
      let _ ← strataInds cfg srcs va
      let _ ← strataInds cfg srcs te
      return ranges

/-- Is an `Except` a success? -/
def isOkE {α : Type} (e : Except String α) : Bool :=
  match e with
  | .ok _ => true
  | .error _ => false

/-! ### Data-source registry (`convert_to_short_ds`, `read_short_ds_json`)

The registry functions manipulate JSON dictionaries whose field values are
arbitrary JSON values compared with `==`; the model is polymorphic in the
value type `V`.  A per-source dictionary is a partial map from the nine
`DataSource` field names; `json.dump`/`json.load` round-trips a dict
unchanged and is modeled as the identity (the spec treats JSON
serialization as an external collaborator).  Dictionary keys
`f'datasource_(id)'` are modeled by the id value itself (Python `str` is
assumed injective on the ids actually used, which the spec requires to be
unique). -/

/-- The nine field names of the `DataSource` namedtuple. -/
inductive DSField where
  | id : DSField
  | input_path : DSField
  | input_bbox : DSField
  | input_mean : DSField
  | input_std : DSField
  | target_path : DSField
  | target_bbox : DSField
  | target_class : DSField
  | target_binary : DSField
deriving DecidableEq, Repr

/-- All nine field names (the namedtuple's `_fields`). -/
def dsFields : List DSField :=
  [DSField.id, DSField.input_path, DSField.input_bbox, DSField.input_mean,
   DSField.input_std, DSField.target_path, DSField.target_bbox,
   DSField.target_class, DSField.target_binary]

/-- A `DataSource` as the registry sees it: a total assignment of JSON
values to the nine fields. -/
structure JDataSource (V : Type) where
  fields : DSField → V

/-- `d._asdict()`: every field present. -/
def asdict {V : Type} (d : JDataSource V) : DSField → Option V :=
  fun f => some (d.fields f)

/-- `DataSource(**m)`: construct from keyword arguments; absent keys take
the namedtuple defaults, modeled by `dflt`. -/
def dsOfDict {V : Type} (dflt : V) (m : DSField → Option V) : JDataSource V :=
  ⟨fun f => (m f).getD dflt⟩

/-- Assignment `d[k] = v` on an insertion-ordered Python dict: overwrite in
place when the key exists, append otherwise. -/
def dictUpsert {V A : Type} [DecidableEq V] (k : V) (v : A) :
    List (V × A) → List (V × A)
  | [] => [(k, v)]
  | (k0, v0) :: rest =>
      if k0 = k then (k0, v) :: rest else (k0, v0) :: dictUpsert k v rest

/-- `WkwData.convert_ds_to_dict`: the dict comprehension
`{f'datasource_(d.id)': d._asdict() for d in datasources}` as an
insertion-ordered association list keyed by the id (duplicate ids collapse,
last value winning, as in Python). -/
def convert_ds_to_dict {V : Type} [DecidableEq V] (srcs : List (JDataSource V)) :
    List (V × (DSField → Option V)) :=
  srcs.foldl (fun d s => dictUpsert (s.fields DSField.id) (asdict s) d) []

/-- `WkwData.ds_find_shared_properties`: the fields whose values are equal
(under `==`) across all sources.  Indexing the first element of an empty
source dict raises `IndexError`. -/
def ds_find_shared_properties {V : Type} [DecidableEq V]
    (srcs : List (JDataSource V)) : Except String (DSField → Option V) :=
  match convert_ds_to_dict srcs with
  | [] => .error "IndexError"
  | first :: rest =>
      .ok (fun f =>
        if (first :: rest).all (fun kv => kv.2 f = first.2 f) then first.2 f
        else none)

/-- A written short-form descriptor: the `shared_properties` dict followed by
the per-source dicts (in insertion order). -/
structure ShortDS (V : Type) where
  shared : DSField → Option V
  entries : List (V × (DSField → Option V))

/-- `WkwData.convert_to_short_ds(data_sources)` on a list argument (with
`shared_properties` computed, not passed): pop every shared key from each
per-source dict and put the result after the `shared_properties` entry. -/
def convert_to_short_ds {V : Type} [DecidableEq V]
    (srcs : List (JDataSource V)) : Except String (ShortDS V) :=
  -- the `isinstance(..., dict)` branch does not apply to a list argument
  match ds_find_shared_properties srcs with
  | .error e => .error e
  | .ok shared =>
      .ok { shared := shared,
            entries := (convert_ds_to_dict srcs).map
              (fun kv => (kv.1, fun f => if (shared f).isSome then none else kv.2 f)) }

/-- `WkwData.read_short_ds_json` after `json.load`: merge
`shared_properties` into every entry with `dict.update` (shared values
overwrite), drop the `shared_properties` key, and build `DataSource(**d)`
for each entry in order. -/
def read_short_ds_json {V : Type} (dflt : V) (sd : ShortDS V) : List (JDataSource V) :=
  sd.entries.map (fun kv =>
    dsOfDict dflt (fun f => match sd.shared f with
      | some v => some v
      | none => kv.2 f))

/-! ### Spec-side description of the coordinate grid (for claim C5) -/

/-- Spec-side `corner_min = floor(origin + window/2)`, written with the
rational floor exactly as the spec states it; to be compared with
`cornerMin`, the integer arithmetic translated from the source. -/
def specCornerMin (origin window : Int) : Int :=
  ⌊(origin : ℚ) + (window : ℚ) / 2⌋

/-- Spec-side `n = floor((extent - window) / stride) + 1`, with the rational
floor; to be compared with `nFits`. -/
def specNFits (ext window stride : Int) : Int :=
  ⌊((ext : ℚ) - (window : ℚ)) / (stride : ℚ)⌋ + 1

/-- Spec-side description of one axis of the coordinate grid (claim C5):
exactly `n` coordinates, starting at `corner_min`, strictly increasing by
`stride`, ending at `corner_min + (n-1)*stride`.  Written from the spec's
words for comparison with `axisCoords`, which is translated from the
source. -/
def AxisCoordsSpec (origin ext window stride : Int) (L : List Int) : Prop :=
  1 ≤ specNFits ext window stride
  ∧ L.length = (specNFits ext window stride).toNat
  ∧ (∀ i, i < L.length →
      L.getD i 0 = specCornerMin origin window + (i : Int) * stride)
  ∧ (∀ i, i + 1 < L.length → L.getD (i+1) 0 - L.getD i 0 = stride)
  ∧ L.getD 0 0 = specCornerMin origin window
  ∧ L.getD ((specNFits ext window stride).toNat - 1) 0 =
      specCornerMin origin window + (specNFits ext window stride - 1) * stride

/-- Is `inner` contained in `outer` (componentwise)? -/
def bbContains (outer inner : BBox) : Bool :=
  decide (outer.origin.x ≤ inner.origin.x) &&
  decide (inner.origin.x + inner.extent.x ≤ outer.origin.x + outer.extent.x) &&
  decide (outer.origin.y ≤ inner.origin.y) &&
  decide (inner.origin.y + inner.extent.y ≤ outer.origin.y + outer.extent.y) &&
  decide (outer.origin.z ≤ inner.origin.z) &&
  decide (inner.origin.z + inner.extent.z ≤ outer.origin.z + outer.extent.z)

/-- Spec-side completeness (claim C8): every one of the six bounding faces
of a channel-first 4-d cube contains at least one non-zero voxel.  Written
from the spec's words for comparison with `assertDataCompleteness`,
translated from the source. -/
def SixFacesNonzero (a : NDArr) : Prop :=
  match a.shape with
  | [c, x, y, z] =>
      (∃ ci < c, ∃ yi < y, ∃ zi < z, a.val [(ci : Int), 0, (yi : Int), (zi : Int)] ≠ 0)
      ∧ (∃ ci < c, ∃ yi < y, ∃ zi < z,
          a.val [(ci : Int), (x : Int) - 1, (yi : Int), (zi : Int)] ≠ 0)
      ∧ (∃ ci < c, ∃ xi < x, ∃ zi < z, a.val [(ci : Int), (xi : Int), 0, (zi : Int)] ≠ 0)
      ∧ (∃ ci < c, ∃ xi < x, ∃ zi < z,
          a.val [(ci : Int), (xi : Int), (y : Int) - 1, (zi : Int)] ≠ 0)
      ∧ (∃ ci < c, ∃ xi < x, ∃ yi < y, a.val [(ci : Int), (xi : Int), (yi : Int), 0] ≠ 0)
      ∧ (∃ ci < c, ∃ xi < x, ∃ yi < y,
          a.val [(ci : Int), (xi : Int), (yi : Int), (z : Int) - 1] ≠ 0)
  | _ => False

/-- Voxel value of a successful read, with an arbitrary marker for errors
(used only to exhibit differing voxels in concrete counterexamples). -/
def exceptVal (e : Except String NDArr) (ix : List Int) : ℚ :=
  match e with
  | .ok a => a.val ix
  | .error _ => 37

/-- Empty memory-tier cache (`self.data_cache_input = dict()`). -/
def emptyRam : RamCache := fun _ => none

/-! ### Concrete instances used by witnesses and counterexamples -/

deriving instance DecidableEq for Except

/-- Configuration with 1x1x1 windows and stride (so every voxel of a bbox is
one grid cell). -/
def cfgW : Config :=
  { input_shape := ⟨1, 1, 1⟩, output_shape := ⟨1, 1, 1⟩, stride := ⟨1, 1, 1⟩,
    normalize := false, hasTransforms := false, pad_target := false,
    cache_RAM := false, cache_HDD := false, cache_HDD_root := "/tmp/cache" }

/-- Source with a 4x1x1 bbox: exactly 4 grid cells under `cfgW`. -/
def srcW : DataSource :=
  { id := "w", input_path := "/w", input_bbox := ⟨⟨0, 0, 0⟩, ⟨4, 1, 1⟩⟩,
    input_mean := 0, input_std := 1, target_path := "/w",
    target_bbox := ⟨⟨0, 0, 0⟩, ⟨4, 1, 1⟩⟩, target_class := 0, target_binary := 0 }

/-- A small concrete configuration: 2x2x1 windows, stride equal to the
target shape (the constructor default), no normalization, no transforms, no
caches. -/
def cfgA : Config :=
  { input_shape := ⟨2, 2, 1⟩, output_shape := ⟨2, 2, 1⟩, stride := ⟨2, 2, 1⟩,
    normalize := false, hasTransforms := false, pad_target := false,
    cache_RAM := false, cache_HDD := false, cache_HDD_root := "/tmp/cache" }

/-- Concrete source with a 4x2x1 bbox (two 2x2x1 grid cells). -/
def srcA1 : DataSource :=
  { id := "1", input_path := "/a", input_bbox := ⟨⟨0, 0, 0⟩, ⟨4, 2, 1⟩⟩,
    input_mean := 0, input_std := 1, target_path := "/a",
    target_bbox := ⟨⟨0, 0, 0⟩, ⟨4, 2, 1⟩⟩, target_class := 0, target_binary := 0 }

/-- Concrete source with a 2x2x1 bbox (one grid cell). -/
def srcA2 : DataSource :=
  { id := "2", input_path := "/b", input_bbox := ⟨⟨10, 0, 0⟩, ⟨2, 2, 1⟩⟩,
    input_mean := 0, input_std := 1, target_path := "/b",
    target_bbox := ⟨⟨10, 0, 0⟩, ⟨2, 2, 1⟩⟩, target_class := 0, target_binary := 0 }

/-- Configuration with a 5x5x5 window (stride defaulted to the target
shape), no split, no caches. -/
def cfg6 : Config :=
  { input_shape := ⟨5, 5, 5⟩, output_shape := ⟨5, 5, 5⟩, stride := ⟨5, 5, 5⟩,
    normalize := false, hasTransforms := false, pad_target := false,
    cache_RAM := false, cache_HDD := false, cache_HDD_root := "/tmp/cache" }

/-- Source whose bbox extent (3x3x3) is smaller than the 5x5x5 window. -/
def srcSmall : DataSource :=
  { id := "small", input_path := "/a", input_bbox := ⟨⟨0, 0, 0⟩, ⟨3, 3, 3⟩⟩,
    input_mean := 0, input_std := 1, target_path := "/a",
    target_bbox := ⟨⟨0, 0, 0⟩, ⟨3, 3, 3⟩⟩, target_class := 0, target_binary := 0 }

/-- Configuration with only the disk tier enabled (`cache_HDD=True`,
`cache_RAM=False`). -/
def cfg3 : Config :=
  { input_shape := ⟨2, 2, 1⟩, output_shape := ⟨2, 2, 1⟩, stride := ⟨2, 2, 1⟩,
    normalize := false, hasTransforms := false, pad_target := false,
    cache_RAM := false, cache_HDD := true, cache_HDD_root := "/c" }

/-- Authoritative store holding the value 1 at every voxel (1 channel). -/
def store1 : Store := { nch := 1, val := fun _ _ _ => 1 }

/-- Disk-tier state with no cached entries. -/
def disk0 : DiskState := { header := fun _ => false, store := { nch := 1, val := fun _ _ _ => 0 } }

/-- Disk-tier state whose header exists everywhere but whose voxels are all
zero (an incomplete / truncated cache entry). -/
def disk2 : DiskState := { header := fun _ => true, store := { nch := 1, val := fun _ _ _ => 0 } }

/-- Disk-tier state whose header exists everywhere and whose voxels are all
one (a complete cache entry). -/
def disk1 : DiskState := { header := fun _ => true, store := { nch := 1, val := fun _ _ _ => 1 } }

/-- Memory cache that has the path `/a` but no bbox entry under it (as left
by interleavings of `fill_cache` for other bboxes of the same path). -/
def ram2 : RamCache :=
  fun p => if p = "/a" then some (fun _ => none) else none

/-- Inner dict of a memory cache holding the cube `fill_cache` reads for
`srcA1`'s registered input bbox from the all-ones store. -/
def inner1 : BBox → Option NDArr :=
  fun b => if b = srcA1.input_bbox then some (wkwRead store1 "/a" srcA1.input_bbox) else none

/-- Memory cache after filling `/a` with `srcA1`'s registered input bbox. -/
def ram1 : RamCache :=
  fun p => if p = "/a" then some inner1 else none

/-- Configuration with a 4x4x1 input window, a 2x2x1 target window and
`pad_target=True` (caches off, no transforms). -/
def cfg9 : Config :=
  { input_shape := ⟨4, 4, 1⟩, output_shape := ⟨2, 2, 1⟩, stride := ⟨2, 2, 1⟩,
    normalize := false, hasTransforms := false, pad_target := true,
    cache_RAM := false, cache_HDD := false, cache_HDD_root := "/c" }

/-- Source whose target lives at a different path than its input, so the
target window is fetched independently (one 4x4x1 grid cell). -/
def src9 : DataSource :=
  { id := "9", input_path := "/a", input_bbox := ⟨⟨0, 0, 0⟩, ⟨4, 4, 1⟩⟩,
    input_mean := 0, input_std := 1, target_path := "/b",
    target_bbox := ⟨⟨0, 0, 0⟩, ⟨4, 4, 1⟩⟩, target_class := 0, target_binary := 0 }

/-- A transform draw that discards its argument (used to witness that the
target draw is never consulted in the self-supervised case). -/
def tfZero : NDArr → NDArr := fun _ => { shape := [], val := fun _ => 0 }

/-- A concrete descriptor with id 1 (several fields share the value 3 with
`jds2`, so the short form factors them out). -/
def jds1 : JDataSource Int :=
  ⟨fun f => match f with
    | DSField.id => 1
    | DSField.input_mean => 7
    | _ => 3⟩

/-- A concrete descriptor with id 2. -/
def jds2 : JDataSource Int :=
  ⟨fun f => match f with
    | DSField.id => 2
    | DSField.input_mean => 9
    | _ => 3⟩

/-! ## Theorems -/

/-! ### Index range arithmetic -/

theorem buildRanges_length (ss : List Nat) : ∀ (m : Int),
    (buildRanges m ss).length = ss.length := by
  induction ss with
  | nil => intro m; rfl
  | cons s ss ih => intro m; simp [buildRanges, ih]

theorem buildRanges_getElem? (ss : List Nat) : ∀ (m : Int) (k : Nat), k < ss.length →
    (buildRanges m ss)[k]? =
      some (m + (((ss.take k).sum : Nat) : Int),
            m + (((ss.take (k+1)).sum : Nat) : Int) - 1) := by
  induction ss with
  | nil => intro m k hk; simp at hk
  | cons s ss ih =>
    intro m k hk
    cases k with
    | zero => simp [buildRanges]
    | succ k =>
      have hk' : k < ss.length := by simpa using hk
      simp only [buildRanges, List.getElem?_cons_succ]
      rw [ih (m + (s : Int)) k hk']
      simp only [List.take_succ_cons, List.sum_cons]
      push_cast
      simp [add_assoc]

theorem dataIndsMin_length (cfg : Config) (srcs : List DataSource) :
    (dataIndsMin cfg srcs).length = srcs.length := by
  simp [dataIndsMin, dataIndRanges, buildRanges_length]

theorem dataIndsMax_length (cfg : Config) (srcs : List DataSource) :
    (dataIndsMax cfg srcs).length = srcs.length := by
  simp [dataIndsMax, dataIndRanges, buildRanges_length]

theorem dataIndsMin_getD (cfg : Config) (srcs : List DataSource) (k : Nat)
    (hk : k < srcs.length) :
    (dataIndsMin cfg srcs).getD k 0 =
      ((((srcs.map (meshSize cfg)).take k).sum : Nat) : Int) := by
  have hk' : k < (srcs.map (meshSize cfg)).length := by simpa using hk
  unfold dataIndsMin dataIndRanges
  rw [List.getD_eq_getElem?_getD, List.getElem?_map,
    buildRanges_getElem? _ 0 k hk']
  simp

theorem dataIndsMax_getD (cfg : Config) (srcs : List DataSource) (k : Nat)
    (hk : k < srcs.length) :
    (dataIndsMax cfg srcs).getD k 0 =
      ((((srcs.map (meshSize cfg)).take (k+1)).sum : Nat) : Int) - 1 := by
  have hk' : k < (srcs.map (meshSize cfg)).length := by simpa using hk
  unfold dataIndsMax dataIndRanges
  rw [List.getD_eq_getElem?_getD, List.getElem?_map,
    buildRanges_getElem? _ 0 k hk']
  simp

theorem take_sum_succ (ss : List Nat) (k : Nat) (hk : k < ss.length) :
    (ss.take (k+1)).sum = (ss.take k).sum + ss.getD k 0 := by
  rw [List.take_succ, List.getElem?_eq_getElem hk, List.sum_append,
    List.getD_eq_getElem ss 0 hk]
  simp

theorem take_sum_mono (ss : List Nat) (a b : Nat) (hab : a ≤ b) :
    (ss.take a).sum ≤ (ss.take b).sum := by
  obtain ⟨t, rfl⟩ := Nat.le.dest hab
  rw [List.take_add, List.sum_append]
  exact Nat.le_add_right _ _

theorem datasetLen_eq (cfg : Config) (srcs : List DataSource) (hne : srcs ≠ []) :
    datasetLen cfg srcs = (((srcs.map (meshSize cfg)).sum : Nat) : Int) := by
  have hlen : (dataIndsMax cfg srcs).length = srcs.length := dataIndsMax_length cfg srcs
  have hpos : 0 < srcs.length := List.length_pos.mpr hne
  have hlt : (dataIndsMax cfg srcs).length - 1 < (dataIndsMax cfg srcs).length := by
    rw [hlen]; omega
  have key : (dataIndsMax cfg srcs).getD (srcs.length - 1) 0 =
      (((srcs.map (meshSize cfg)).sum : Nat) : Int) - 1 := by
    rw [dataIndsMax_getD cfg srcs (srcs.length - 1) (by omega)]
    have h1 : srcs.length - 1 + 1 = srcs.length := by omega
    rw [h1]
    have h2 : (srcs.map (meshSize cfg)).take srcs.length = srcs.map (meshSize cfg) := by
      have : srcs.length = (srcs.map (meshSize cfg)).length := by simp
      rw [this, List.take_length]
    rw [h2]
  have h3 : (dataIndsMax cfg srcs).getLastD (-1) =
      (dataIndsMax cfg srcs).getD ((dataIndsMax cfg srcs).length - 1) 0 := by
    rw [List.getLastD_eq_getLast?, List.getLast?_eq_getElem?,
      List.getD_eq_getElem?_getD, List.getElem?_eq_getElem hlt]
    rfl
  unfold datasetLen
  rw [h3, hlen, key]
  omega

/-! ### Row-major flatten / unflatten -/

theorem ravelRev_unravelRev : ∀ (ds : List Nat) (i : Nat), i < ds.prod →
    ravelRev (unravelRev i ds) ds = i := by
  intro ds
  induction ds with
  | nil =>
    intro i hi
    simp only [List.prod_nil] at hi
    interval_cases i
    rfl
  | cons d ds ih =>
    intro i hi
    have hd : 0 < d := by
      rcases Nat.eq_zero_or_pos d with h | h
      · subst h; simp at hi
      · exact h
    have hdiv : i / d < ds.prod := by
      rw [Nat.div_lt_iff_lt_mul hd]
      calc i < (d :: ds).prod := hi
        _ = ds.prod * d := by rw [List.prod_cons, Nat.mul_comm]
    simp only [unravelRev, ravelRev]
    rw [ih _ hdiv]
    exact Nat.mod_add_div i d

theorem ravelIdx_unravelIdx (i : Nat) (dims : List Nat) (hi : i < dims.prod) :
    ravelIdx (unravelIdx i dims) dims = i := by
  unfold ravelIdx unravelIdx
  rw [List.reverse_reverse]
  exact ravelRev_unravelRev dims.reverse i (by rwa [List.prod_reverse])

/-! ### Locating the owning source -/

theorem argmaxGe_eq_findIdx (maxs : List Int) (idx : Int)
    (h : ∃ m ∈ maxs, idx ≤ m) :
    argmaxGe maxs idx = maxs.findIdx (fun m => decide (idx ≤ m)) := by
  unfold argmaxGe
  have hlt : maxs.findIdx (fun m => decide (idx ≤ m)) < maxs.length := by
    apply List.findIdx_lt_length_of_exists
    obtain ⟨m, hm, hle⟩ := h
    exact ⟨m, hm, by simpa using hle⟩
  simp [hlt]

/-- C1: for every non-empty list of data sources the per-source global index
ranges `[data_inds_min[k], data_inds_max[k]]` are contiguous (source 0
starts at 0, each subsequent min is the previous max plus one, each max is
its min plus the source's grid-cell count minus one), and every global index
in `[0, len - 1]` is resolved by `get_source_mesh_for_sample_idx` to the
unique source whose range contains it, together with a row-major grid cell
whose flat position within that source converts back to the same global
index. -/
theorem C1_index_translator_bijection (cfg : Config) (srcs : List DataSource)
    (hne : srcs ≠ []) :
    (dataIndsMin cfg srcs).getD 0 0 = 0
    ∧ (∀ k, k + 1 < srcs.length →
        (dataIndsMin cfg srcs).getD (k+1) 0 = (dataIndsMax cfg srcs).getD k 0 + 1)
    ∧ (∀ k, k < srcs.length →
        (dataIndsMax cfg srcs).getD k 0 =
          (dataIndsMin cfg srcs).getD k 0 + (meshSize cfg (getSrc srcs k) : Int) - 1)
    ∧ (∀ idx : Int, 0 ≤ idx → idx ≤ datasetLen cfg srcs - 1 →
        (getSourceMesh cfg srcs idx).1 < srcs.length
        ∧ (∀ j, j < srcs.length →
            (((dataIndsMin cfg srcs).getD j 0 ≤ idx
                ∧ idx ≤ (dataIndsMax cfg srcs).getD j 0)
              ↔ j = (getSourceMesh cfg srcs idx).1))
        ∧ (dataIndsMin cfg srcs).getD (getSourceMesh cfg srcs idx).1 0
            + ((ravelIdx (getSourceMesh cfg srcs idx).2
                 (meshShape cfg (getSrc srcs (getSourceMesh cfg srcs idx).1)) : Nat) : Int)
            = idx) := by
  have hn : 0 < srcs.length := List.length_pos.mpr hne
  have hSlen : (srcs.map (meshSize cfg)).length = srcs.length := by simp
  have hgetS : ∀ k, k < srcs.length →
      (srcs.map (meshSize cfg)).getD k 0 = meshSize cfg (getSrc srcs k) := by
    intro k hk
    have hk' : k < (srcs.map (meshSize cfg)).length := by omega
    rw [List.getD_eq_getElem _ 0 hk', List.getElem_map]
    unfold getSrc
    rw [List.getD_eq_getElem srcs dfltSource hk]
  refine ⟨?_, ?_, ?_, ?_⟩
  · rw [dataIndsMin_getD cfg srcs 0 hn]
    simp
  · intro k hk
    rw [dataIndsMin_getD cfg srcs (k+1) hk, dataIndsMax_getD cfg srcs k (by omega)]
    omega
  · intro k hk
    rw [dataIndsMax_getD cfg srcs k hk, dataIndsMin_getD cfg srcs k hk, ← hgetS k hk,
      take_sum_succ _ k (by omega)]
    push_cast
    ring
  · intro idx h0 hub
    have hlenS : datasetLen cfg srcs = (((srcs.map (meshSize cfg)).sum : Nat) : Int) :=
      datasetLen_eq cfg srcs hne
    have hmaxs_len : (dataIndsMax cfg srcs).length = srcs.length :=
      dataIndsMax_length cfg srcs
    have hlast : (dataIndsMax cfg srcs).getD (srcs.length - 1) 0 =
        (((srcs.map (meshSize cfg)).sum : Nat) : Int) - 1 := by
      rw [dataIndsMax_getD cfg srcs (srcs.length - 1) (by omega)]
      have h1 : srcs.length - 1 + 1 = srcs.length := by omega
      rw [h1]
      have h2 : (srcs.map (meshSize cfg)).take srcs.length = srcs.map (meshSize cfg) := by
        rw [← hSlen, List.take_length]
      rw [h2]
    have hex : ∃ m ∈ dataIndsMax cfg srcs, idx ≤ m := by
      refine ⟨(dataIndsMax cfg srcs).getD (srcs.length - 1) 0, ?_, ?_⟩
      · have hlt : srcs.length - 1 < (dataIndsMax cfg srcs).length := by omega
        rw [List.getD_eq_getElem _ 0 hlt]
        exact List.getElem_mem hlt
      · rw [hlast]
        omega
    have hexB : ∃ m ∈ dataIndsMax cfg srcs, (fun m => decide (idx ≤ m)) m := by
      obtain ⟨m, hm, hle⟩ := hex
      exact ⟨m, hm, by simpa using hle⟩
    have hk0lt : (dataIndsMax cfg srcs).findIdx (fun m => decide (idx ≤ m)) <
        (dataIndsMax cfg srcs).length :=
      List.findIdx_lt_length_of_exists hexB
    set k0 := (dataIndsMax cfg srcs).findIdx (fun m => decide (idx ≤ m)) with hk0def
    have hk0n : k0 < srcs.length := by omega
    have hargm : argmaxGe (dataIndsMax cfg srcs) idx = k0 := by
      rw [argmaxGe_eq_findIdx _ _ hex]
    have hgsm : getSourceMesh cfg srcs idx =
        (argmaxGe (dataIndsMax cfg srcs) idx,
         unravelIdx (idx - (dataIndsMin cfg srcs).getD
             (argmaxGe (dataIndsMax cfg srcs) idx) 0).toNat
           (meshShape cfg (getSrc srcs (argmaxGe (dataIndsMax cfg srcs) idx)))) := rfl
    have hpk0 : idx ≤ (dataIndsMax cfg srcs).getD k0 0 := by
      have hsat := @List.findIdx_getElem _ (fun m => decide (idx ≤ m))
        (dataIndsMax cfg srcs) hk0lt
      rw [List.getD_eq_getElem _ 0 hk0lt]
      simpa using hsat
    have hbefore : ∀ j, j < k0 → (dataIndsMax cfg srcs).getD j 0 < idx := by
      intro j hj
      have hjlen : j < (dataIndsMax cfg srcs).length := by omega
      have hnp := @List.not_of_lt_findIdx _ (fun m => decide (idx ≤ m))
        (dataIndsMax cfg srcs) j hj
      rw [List.getD_eq_getElem _ 0 hjlen]
      simpa using hnp
    have hmink0 : (dataIndsMin cfg srcs).getD k0 0 ≤ idx := by
      cases hk0c : k0 with
      | zero =>
        rw [dataIndsMin_getD cfg srcs 0 hn]
        simpa using h0
      | succ j =>
        have hj : j < k0 := by omega
        have hjn : j < srcs.length := by omega
        have h1 := hbefore j hj
        rw [dataIndsMax_getD cfg srcs j hjn] at h1
        rw [dataIndsMin_getD cfg srcs (j+1) (by omega)]
        omega
    have hsizek0 : idx - (dataIndsMin cfg srcs).getD k0 0 <
        (meshSize cfg (getSrc srcs k0) : Int) := by
      have h1 := hpk0
      rw [dataIndsMax_getD cfg srcs k0 hk0n, take_sum_succ _ k0 (by omega),
        hgetS k0 hk0n] at h1
      rw [dataIndsMin_getD cfg srcs k0 hk0n]
      push_cast at h1 ⊢
      omega
    refine ⟨?_, ?_, ?_⟩
    · rw [hgsm]
      simpa [hargm] using hk0n
    · intro j hj
      rw [hgsm]
      simp only [hargm]
      constructor
      · rintro ⟨hlo, hhi⟩
        by_contra hjne
        rcases Nat.lt_or_ge j k0 with hlt | hge
        · exact absurd hhi (not_le.mpr (hbefore j hlt))
        · have hgt : k0 < j := by omega
          have h1 : ((((srcs.map (meshSize cfg)).take (k0+1)).sum : Nat) : Int) ≤
              (dataIndsMin cfg srcs).getD j 0 := by
            rw [dataIndsMin_getD cfg srcs j hj]
            exact_mod_cast take_sum_mono (srcs.map (meshSize cfg)) (k0+1) j hgt
          have h2 : idx < ((((srcs.map (meshSize cfg)).take (k0+1)).sum : Nat) : Int) := by
            have h3 := hpk0
            rw [dataIndsMax_getD cfg srcs k0 hk0n] at h3
            omega
          omega
      · rintro rfl
        exact ⟨hmink0, hpk0⟩
    · rw [hgsm]
      simp only [hargm]
      have hprod : (meshShape cfg (getSrc srcs k0)).prod = meshSize cfg (getSrc srcs k0) :=
        rfl
      rw [ravelIdx_unravelIdx _ _ (by rw [hprod]; omega)]
      omega

/-- Witness for C1 at a concrete two-source dataset (sizes 2 and 1). -/
theorem C1_index_translator_bijection_witness :
    ([srcA1, srcA2] : List DataSource) ≠ []
    ∧ ((dataIndsMin cfgA [srcA1, srcA2]).getD 0 0 = 0
    ∧ (∀ k, k + 1 < ([srcA1, srcA2] : List DataSource).length →
        (dataIndsMin cfgA [srcA1, srcA2]).getD (k+1) 0 =
          (dataIndsMax cfgA [srcA1, srcA2]).getD k 0 + 1)
    ∧ (∀ k, k < ([srcA1, srcA2] : List DataSource).length →
        (dataIndsMax cfgA [srcA1, srcA2]).getD k 0 =
          (dataIndsMin cfgA [srcA1, srcA2]).getD k 0 +
            (meshSize cfgA (getSrc [srcA1, srcA2] k) : Int) - 1)
    ∧ (∀ idx : Int, 0 ≤ idx → idx ≤ datasetLen cfgA [srcA1, srcA2] - 1 →
        (getSourceMesh cfgA [srcA1, srcA2] idx).1 < ([srcA1, srcA2] : List DataSource).length
        ∧ (∀ j, j < ([srcA1, srcA2] : List DataSource).length →
            (((dataIndsMin cfgA [srcA1, srcA2]).getD j 0 ≤ idx
                ∧ idx ≤ (dataIndsMax cfgA [srcA1, srcA2]).getD j 0)
              ↔ j = (getSourceMesh cfgA [srcA1, srcA2] idx).1))
        ∧ (dataIndsMin cfgA [srcA1, srcA2]).getD
              (getSourceMesh cfgA [srcA1, srcA2] idx).1 0
            + ((ravelIdx (getSourceMesh cfgA [srcA1, srcA2] idx).2
                 (meshShape cfgA
                   (getSrc [srcA1, srcA2]
                     (getSourceMesh cfgA [srcA1, srcA2] idx).1)) : Nat) : Int)
            = idx)) :=
  ⟨by simp, C1_index_translator_bijection cfgA [srcA1, srcA2] (by simp)⟩

/-! ### Coordinate grid facts (C5, C6) -/

theorem floor_ratCast_div (a b : Int) (hb : 0 < b) :
    ⌊(a : ℚ) / (b : ℚ)⌋ = Int.fdiv a b := by
  have hbn : ((b.toNat : ℤ)) = b := Int.toNat_of_nonneg hb.le
  rw [Int.fdiv_eq_ediv a hb.le, ← hbn]
  exact_mod_cast Rat.floor_intCast_div_natCast a b.toNat

theorem specCornerMin_eq (origin window : Int) :
    specCornerMin origin window = cornerMin origin window := by
  unfold specCornerMin cornerMin
  rw [Int.floor_int_add]
  congr 1
  have h2 : ((2 : ℤ) : ℚ) = (2 : ℚ) := by norm_num
  rw [← h2]
  exact floor_ratCast_div window 2 (by norm_num)

theorem specNFits_eq (ext window stride : Int) (hs : 0 < stride) :
    specNFits ext window stride = nFits ext window stride := by
  unfold specNFits nFits
  congr 1
  have h1 : ((ext : ℚ) - (window : ℚ)) = ((ext - window : ℤ) : ℚ) := by push_cast; ring
  rw [h1]
  exact floor_ratCast_div (ext - window) stride hs

theorem arangeLen_pos_step (start : Int) (n stride : Int) (hs : 0 < stride) :
    arangeLen start (start + n * stride) stride = n.toNat := by
  unfold arangeLen
  rw [if_pos hs]
  have h1 : start + n * stride - start + stride - 1 = (stride - 1) + n * stride := by ring
  rw [h1, Int.fdiv_eq_ediv _ hs.le, Int.add_mul_ediv_right _ _ hs.ne',
    Int.ediv_eq_zero_of_lt (by omega) (by omega)]
  omega

theorem arange_getD (start step : Int) (m : Nat) (i : Nat) (d : Int)
    (hi : i < arangeLen start (start + (m : Int) * step) step) :
    (arange start (start + (m : Int) * step) step).getD i d = start + (i : Int) * step := by
  unfold arange
  have hlen : i < ((List.range (arangeLen start (start + (m : Int) * step) step)).map
      (fun j : Nat => start + (j : Int) * step)).length := by
    simpa using hi
  rw [List.getD_eq_getElem _ d hlen, List.getElem_map, List.getElem_range]

theorem axisCoords_spec (origin ext window stride : Int)
    (hw : window ≤ ext) (hs : 0 < stride) :
    AxisCoordsSpec origin ext window stride (axisCoords origin ext window stride) := by
  have hn1 : 1 ≤ nFits ext window stride := by
    unfold nFits
    have := Int.fdiv_nonneg (a := ext - window) (b := stride) (by omega) hs.le
    omega
  have hstop : cornerMin origin window + (nFits ext window stride - 1) * stride + stride =
      cornerMin origin window + nFits ext window stride * stride := by ring
  have hlen : (axisCoords origin ext window stride).length =
      (nFits ext window stride).toNat := by
    unfold axisCoords
    rw [hstop]
    unfold arange
    rw [List.length_map, List.length_range]
    exact arangeLen_pos_step _ _ _ hs
  have hget : ∀ i, i < (axisCoords origin ext window stride).length →
      (axisCoords origin ext window stride).getD i 0 =
        cornerMin origin window + (i : Int) * stride := by
    intro i hi
    unfold axisCoords at hi ⊢
    rw [hstop] at hi ⊢
    have hmn : nFits ext window stride = ((nFits ext window stride).toNat : Int) := by
      omega
    rw [hmn]
    rw [hmn] at hi
    apply arange_getD
    unfold arange at hi
    simpa using hi
  refine ⟨?_, ?_, ?_, ?_, ?_, ?_⟩
  · rw [specNFits_eq _ _ _ hs]; exact hn1
  · rw [specNFits_eq _ _ _ hs]; exact hlen
  · intro i hi
    rw [specCornerMin_eq]
    exact hget i hi
  · intro i hi
    rw [hget (i+1) hi, hget i (by omega)]
    push_cast
    ring
  · rw [specCornerMin_eq]
    have h0 : 0 < (axisCoords origin ext window stride).length := by
      rw [hlen]; omega
    have := hget 0 h0
    simpa using this
  · rw [specCornerMin_eq, specNFits_eq _ _ _ hs]
    have hlt : (nFits ext window stride).toNat - 1 <
        (axisCoords origin ext window stride).length := by
      rw [hlen]; omega
    rw [hget _ hlt]
    congr 1
    have : (((nFits ext window stride).toNat - 1 : Nat) : Int) =
        nFits ext window stride - 1 := by omega
    rw [this]

/-- C5: for every data source whose input bbox extent is at least the window
shape along every axis (and a positive stride), each axis of the coordinate
grid starts at `corner_min = floor(origin + window/2)`, is strictly
increasing by `stride`, has exactly `floor((extent - window)/stride) + 1`
entries ending at `corner_min + (n-1)*stride`, and the total grid cell
count is the product of the per-axis counts. -/
theorem C5_coordinate_grid_builder (cfg : Config) (src : DataSource)
    (hwx : cfg.input_shape.x ≤ src.input_bbox.extent.x)
    (hwy : cfg.input_shape.y ≤ src.input_bbox.extent.y)
    (hwz : cfg.input_shape.z ≤ src.input_bbox.extent.z)
    (hsx : 0 < cfg.stride.x) (hsy : 0 < cfg.stride.y) (hsz : 0 < cfg.stride.z) :
    AxisCoordsSpec src.input_bbox.origin.x src.input_bbox.extent.x
        cfg.input_shape.x cfg.stride.x (meshX cfg src)
    ∧ AxisCoordsSpec src.input_bbox.origin.y src.input_bbox.extent.y
        cfg.input_shape.y cfg.stride.y (meshY cfg src)
    ∧ AxisCoordsSpec src.input_bbox.origin.z src.input_bbox.extent.z
        cfg.input_shape.z cfg.stride.z (meshZ cfg src)
    ∧ meshSize cfg src =
        (meshX cfg src).length * (meshY cfg src).length * (meshZ cfg src).length := by
  refine ⟨axisCoords_spec _ _ _ _ hwx hsx, axisCoords_spec _ _ _ _ hwy hsy,
    axisCoords_spec _ _ _ _ hwz hsz, ?_⟩
  unfold meshSize meshShape
  simp [List.prod_cons]
  ring

/-- Witness for C5 at the concrete source `srcA1` (grid counts 2, 1, 1). -/
theorem C5_coordinate_grid_builder_witness :
    (cfgA.input_shape.x ≤ srcA1.input_bbox.extent.x
      ∧ cfgA.input_shape.y ≤ srcA1.input_bbox.extent.y
      ∧ cfgA.input_shape.z ≤ srcA1.input_bbox.extent.z
      ∧ 0 < cfgA.stride.x ∧ 0 < cfgA.stride.y ∧ 0 < cfgA.stride.z)
    ∧ (AxisCoordsSpec srcA1.input_bbox.origin.x srcA1.input_bbox.extent.x
        cfgA.input_shape.x cfgA.stride.x (meshX cfgA srcA1)
    ∧ AxisCoordsSpec srcA1.input_bbox.origin.y srcA1.input_bbox.extent.y
        cfgA.input_shape.y cfgA.stride.y (meshY cfgA srcA1)
    ∧ AxisCoordsSpec srcA1.input_bbox.origin.z srcA1.input_bbox.extent.z
        cfgA.input_shape.z cfgA.stride.z (meshZ cfgA srcA1)
    ∧ meshSize cfgA srcA1 =
        (meshX cfgA srcA1).length * (meshY cfgA srcA1).length *
          (meshZ cfgA srcA1).length) :=
  ⟨by refine ⟨?_, ?_, ?_, ?_, ?_, ?_⟩ <;> decide,
   C5_coordinate_grid_builder cfgA srcA1 (by decide) (by decide) (by decide)
     (by decide) (by decide) (by decide)⟩

theorem axisCoords_nil (origin ext window stride : Int)
    (hw : ext < window) (hs : 0 < stride) :
    axisCoords origin ext window stride = [] := by
  have hn : nFits ext window stride ≤ 0 := by
    unfold nFits
    have h1 : Int.fdiv (ext - window) stride < 0 := by
      rw [Int.fdiv_eq_ediv _ hs.le]
      exact Int.ediv_neg' (by omega) hs
    omega
  have hstop : cornerMin origin window + (nFits ext window stride - 1) * stride + stride =
      cornerMin origin window + nFits ext window stride * stride := by ring
  unfold axisCoords
  rw [hstop]
  unfold arange
  rw [arangeLen_pos_step _ _ _ hs]
  have : (nFits ext window stride).toNat = 0 := by omega
  rw [this]
  rfl

/-- Counterexample to C6: a source whose bbox extent (3x3x3) is smaller
than the 5x5x5 window.  Construction succeeds (`initWkwData` returns `.ok`;
no exception is raised at setup time) and silently produces an empty
coordinate grid: zero grid cells and a dataset length of zero, contrary to
the claimed fail-fast behavior. -/
theorem C6_no_failfast_counterexample :
    srcSmall.input_bbox.extent.x < cfg6.input_shape.x
    ∧ isOkE (initWkwData cfg6 [srcSmall] none []) = true
    ∧ meshSize cfg6 srcSmall = 0
    ∧ datasetLen cfg6 [srcSmall] = 0 := by
  refine ⟨by decide, by decide, by decide, by decide⟩

/-- C6 amended: if a source's input bbox extent is smaller than the window
shape along some axis (with a positive stride there), construction does
*not* fail fast: the mesh builder silently produces an empty grid (zero
cells), the source occupies an empty index range, and the constructor model
returns successfully. -/
theorem C6_undersized_window_silent (cfg : Config) (src : DataSource)
    (h : (src.input_bbox.extent.x < cfg.input_shape.x ∧ 0 < cfg.stride.x)
       ∨ (src.input_bbox.extent.y < cfg.input_shape.y ∧ 0 < cfg.stride.y)
       ∨ (src.input_bbox.extent.z < cfg.input_shape.z ∧ 0 < cfg.stride.z)) :
    meshSize cfg src = 0
    ∧ isOkE (initWkwData cfg [src] none []) = true
    ∧ datasetLen cfg [src] = 0 := by
  have hms : meshSize cfg src = 0 := by
    rcases h with ⟨hw, hs⟩ | ⟨hw, hs⟩ | ⟨hw, hs⟩
    · have := axisCoords_nil src.input_bbox.origin.x src.input_bbox.extent.x
        cfg.input_shape.x cfg.stride.x hw hs
      simp [meshSize, meshShape, meshX, this]
    · have := axisCoords_nil src.input_bbox.origin.y src.input_bbox.extent.y
        cfg.input_shape.y cfg.stride.y hw hs
      simp [meshSize, meshShape, meshY, this]
    · have := axisCoords_nil src.input_bbox.origin.z src.input_bbox.extent.z
        cfg.input_shape.z cfg.stride.z hw hs
      simp [meshSize, meshShape, meshZ, this]
  refine ⟨hms, rfl, ?_⟩
  unfold datasetLen dataIndsMax dataIndRanges
  simp [buildRanges, hms]

/-- Witness for the amended C6 at the concrete undersized source. -/
theorem C6_undersized_window_silent_witness :
    ((srcSmall.input_bbox.extent.x < cfg6.input_shape.x ∧ 0 < cfg6.stride.x)
       ∨ (srcSmall.input_bbox.extent.y < cfg6.input_shape.y ∧ 0 < cfg6.stride.y)
       ∨ (srcSmall.input_bbox.extent.z < cfg6.input_shape.z ∧ 0 < cfg6.stride.z))
    ∧ (meshSize cfg6 srcSmall = 0
    ∧ isOkE (initWkwData cfg6 [srcSmall] none []) = true
    ∧ datasetLen cfg6 [srcSmall] = 0) :=
  ⟨Or.inl (by decide), C6_undersized_window_silent cfg6 srcSmall (Or.inl (by decide))⟩

/-! ### Fraction-mode split (C4) -/

/-- Counterexample to C4: with float fractions `7/16, 7/16, 1/8` (exactly
representable in binary floating point, summing to exactly 1) on the
4-sample dataset `[srcW]`, the cut points are `int(1.75) = 1`,
`int(1.75) = 1`, `int(0.5) = 0`, so two indices are left over by rounding
and `get_data_ind_splits` raises instead of appending the remainder to the
training split. -/
theorem C4_two_leftover_raises_counterexample :
    ((7/16 : ℚ) + 7/16 + 1/8 = 1)
    ∧ ([0, 1, 2, 3] : List Nat).Perm (List.range (datasetLen cfgW [srcW]).toNat)
    ∧ (datasetLen cfgW [srcW]).toNat = 4
    ∧ splitFractions (7/16) (7/16) (1/8) [0, 1, 2, 3] (datasetLen cfgW [srcW]).toNat =
        .error "more than one index left behind in splitting the data into train, val and test" := by
  have hN : (datasetLen cfgW [srcW]).toNat = 4 := by decide
  rw [hN]
  refine ⟨by norm_num, by decide, rfl, ?_⟩
  have h1 : pyInt ((7/16 : ℚ) * ((4 : ℕ) : ℚ)) = 1 := by
    unfold pyInt
    rw [if_pos (by norm_num)]
    norm_num
  have h2 : pyInt ((1/8 : ℚ) * ((4 : ℕ) : ℚ)) = 0 := by
    unfold pyInt
    rw [if_pos (by norm_num)]
    norm_num
  simp only [splitFractions, h1, h2]
  decide

/-- C4 amended: fraction-mode splitting slices a seeded permutation of all
global indices at the cut points `int(train*N)`, `int(val*N)`, `int(test*N)`
accumulated in that order; it raises when more than one index is left over
by rounding, and whenever it returns, at most one leftover index has been
appended to train and the three splits are pairwise disjoint with union
exactly the full index set. -/
theorem C4_fraction_split_partition (a b c : ℚ) (perm : List Nat) (N : Nat)
    (hperm : perm.Perm (List.range N)) :
    ∀ trL vaL teL, splitFractions a b c perm N = .ok (trL, vaL, teL) →
      vaL = (perm.drop (pyInt (a * (N : ℚ))).toNat).take (pyInt (b * (N : ℚ))).toNat
      ∧ teL = (perm.drop ((pyInt (a * (N : ℚ))).toNat + (pyInt (b * (N : ℚ))).toNat)).take
          (pyInt (c * (N : ℚ))).toNat
      ∧ (∃ extra, trL = perm.take (pyInt (a * (N : ℚ))).toNat ++ extra ∧ extra.length ≤ 1)
      ∧ (∀ x, x ∈ trL → ¬ x ∈ vaL ∧ ¬ x ∈ teL)
      ∧ (∀ x, x ∈ vaL → ¬ x ∈ teL)
      ∧ (∀ x, (x ∈ trL ∨ x ∈ vaL ∨ x ∈ teL) ↔ x ∈ List.range N) := by
  intro trL vaL teL h
  have hnd : perm.Nodup := hperm.nodup_iff.mpr (List.nodup_range N)
  have hmemp : ∀ x, x ∈ perm ↔ x ∈ List.range N := fun x => hperm.mem_iff
  simp only [splitFractions] at h
  simp only [Nat.add_sub_cancel_left] at h
  set t := (pyInt (a * (N : ℚ))).toNat with ht
  set v := (pyInt (b * (N : ℚ))).toNat with hv
  set w := (pyInt (c * (N : ℚ))).toNat with hw
  set trainL := perm.take t with htrainL
  set valL := (perm.drop t).take v with hvalL
  set testL := (perm.drop (t + v)).take w with htestL
  set leftover := (List.range N).filter
      (fun i => decide (i ∉ trainL ++ valL ++ testL)) with hleftover
  set trainL2 := if leftover.length = 1 then trainL ++ leftover else trainL with htrainL2
  split at h
  · exact absurd h (by simp)
  rename_i hleft1
  split at h
  case isFalse.isFalse => exact absurd h (by simp)
  rename_i hassert
  rw [Except.ok.injEq, Prod.mk.injEq, Prod.mk.injEq] at h
  obtain ⟨htr, hva, hte⟩ := h
  subst hva
  subst hte
  subst htr
  have hd3 : (perm.drop t).drop v = perm.drop (t + v) := by
    rw [List.drop_drop, Nat.add_comm]
  have hpeq : perm = trainL ++ (valL ++ (testL ++ (perm.drop (t + v)).drop w)) := by
    rw [htrainL, hvalL, htestL, ← hd3, List.take_append_drop,
      List.take_append_drop, List.take_append_drop]
  have hndAll : (trainL ++ (valL ++ (testL ++ (perm.drop (t + v)).drop w))).Nodup := by
    rw [← hpeq]
    exact hnd
  rw [List.nodup_append] at hndAll
  obtain ⟨hndTr, hndR1, hdisj1⟩ := hndAll
  rw [List.nodup_append] at hndR1
  obtain ⟨hndVa, hndR2, hdisj2⟩ := hndR1
  have hsubTr : ∀ x, x ∈ trainL → x ∈ perm := by
    intro x hx
    rw [htrainL] at hx
    exact List.take_subset _ _ hx
  have hsubVa : ∀ x, x ∈ valL → x ∈ perm := by
    intro x hx
    rw [hvalL] at hx
    exact List.drop_subset _ _ (List.take_subset _ _ hx)
  have hsubTe : ∀ x, x ∈ testL → x ∈ perm := by
    intro x hx
    rw [htestL] at hx
    exact List.drop_subset _ _ (List.take_subset _ _ hx)
  have hleftmem : ∀ x, x ∈ leftover ↔
      (x ∈ List.range N ∧ ¬ x ∈ trainL ++ valL ++ testL) := by
    intro x
    rw [hleftover]
    simp [List.mem_filter]
  have htrLmem : ∀ x, x ∈ trainL2 ↔
      (x ∈ trainL ∨ (leftover.length = 1 ∧ x ∈ leftover)) := by
    intro x
    rw [htrainL2]
    by_cases hone : leftover.length = 1
    · simp [hone]
    · simp [hone]
  refine ⟨rfl, rfl, ?_, ?_, ?_, ?_⟩
  · by_cases hone : leftover.length = 1
    · refine ⟨leftover, ?_, by omega⟩
      rw [htrainL2, if_pos hone, htrainL]
    · refine ⟨[], ?_, by simp⟩
      rw [htrainL2, if_neg hone, htrainL, List.append_nil]
  · intro x hx
    rw [htrLmem] at hx
    rcases hx with hx | ⟨_, hx⟩
    · constructor
      · intro hxv
        exact hdisj1 hx (List.mem_append_left _ hxv)
      · intro hxt
        exact hdisj1 hx (List.mem_append_right _ (List.mem_append_left _ hxt))
    · have hnc := ((hleftmem x).mp hx).2
      constructor
      · intro hxv
        exact hnc (List.mem_append_left testL (List.mem_append_right trainL hxv))
      · intro hxt
        exact hnc (List.mem_append_right (trainL ++ valL) hxt)
  · intro x hx hxt
    exact hdisj2 hx (List.mem_append_left _ hxt)
  · intro x
    constructor
    · rintro (hx | hx | hx)
      · rw [htrLmem] at hx
        rcases hx with hx | ⟨_, hx⟩
        · exact (hmemp x).mp (hsubTr x hx)
        · exact ((hleftmem x).mp hx).1
      · exact (hmemp x).mp (hsubVa x hx)
      · exact (hmemp x).mp (hsubTe x hx)
    · intro hxr
      by_cases hcomb : x ∈ trainL ++ valL ++ testL
      · rcases List.mem_append.mp hcomb with h12 | hx
        · rcases List.mem_append.mp h12 with hx | hx
          · exact Or.inl ((htrLmem x).mpr (Or.inl hx))
          · exact Or.inr (Or.inl hx)
        · exact Or.inr (Or.inr hx)
      · have hxl : x ∈ leftover := (hleftmem x).mpr ⟨hxr, hcomb⟩
        have hone : leftover.length = 1 := by
          have h0 : leftover ≠ [] := by
            intro hnil
            rw [hnil] at hxl
            simp at hxl
          have hp : 0 < leftover.length := List.length_pos.mpr h0
          omega
        exact Or.inl ((htrLmem x).mpr (Or.inr ⟨hone, hxl⟩))

/-- Witness for the amended C4 at `N = 10`, fractions `0.7 / 0.2 / 0.1` and
the identity permutation: the split returns, and the three sets tile
`{0, ..., 9}`. -/
theorem C4_fraction_split_partition_witness :
    (List.range 10).Perm (List.range 10)
    ∧ (∀ x, (x ∈ ([0, 1, 2, 3, 4, 5, 6] : List Nat) ∨ x ∈ ([7, 8] : List Nat)
        ∨ x ∈ ([9] : List Nat)) ↔ x ∈ List.range 10) := by
  have hok : splitFractions (7/10) (2/10) (1/10) (List.range 10) 10 =
      .ok ([0, 1, 2, 3, 4, 5, 6], [7, 8], [9]) := by
    have h1 : pyInt ((7/10 : ℚ) * ((10 : ℕ) : ℚ)) = 7 := by
      unfold pyInt
      rw [if_pos (by norm_num)]
      norm_num
    have h2 : pyInt ((2/10 : ℚ) * ((10 : ℕ) : ℚ)) = 2 := by
      unfold pyInt
      rw [if_pos (by norm_num)]
      norm_num
    have h3 : pyInt ((1/10 : ℚ) * ((10 : ℕ) : ℚ)) = 1 := by
      unfold pyInt
      rw [if_pos (by norm_num)]
      norm_num
    simp only [splitFractions, h1, h2, h3]
    decide
  exact ⟨List.Perm.refl _,
    (C4_fraction_split_partition (7/10) (2/10) (1/10) (List.range 10) 10
      (List.Perm.refl _) [0, 1, 2, 3, 4, 5, 6] [7, 8] [9] hok).2.2.2.2.2⟩

/-! ### Cache manager (C2, C3, C8) -/

theorem inShape_four {a b c d : Nat} {ix : List Int} (h : inShape [a, b, c, d] ix = true) :
    ∃ i1 i2 i3 i4, ix = [i1, i2, i3, i4] := by
  match ix with
  | [i1, i2, i3, i4] => exact ⟨i1, i2, i3, i4, rfl⟩
  | [] => simp [inShape] at h
  | [_] => simp [inShape] at h
  | [_, _] => simp [inShape] at h
  | [_, _, _] => simp [inShape] at h
  | _ :: _ :: _ :: _ :: _ :: _ => simp [inShape] at h

/-- Counterexample to C2: the memory cache knows the path `/a` but not this
bbox key, the disk cache has a header for the mirrored path but holds an
all-zero (hence incomplete, by the six-face check) cube, and the
authoritative store holds ones.  `wkw_read_cached` serves the stale disk
cube without running the completeness check, so its result is not
voxel-identical to a direct uncached read — unlike `fill_cache`, which
would have detected the zero faces and re-fetched. -/
theorem C2_disk_tier_skips_completeness_counterexample :
    bbContains srcA1.input_bbox srcA1.input_bbox = true
    ∧ exceptVal (wkwReadCached cfg3 [srcA1] store1 disk2 ram2 0 Role.input
        srcA1.input_bbox) [0, 0, 0, 0] = 0
    ∧ (wkwRead store1 "/a" srcA1.input_bbox).val [0, 0, 0, 0] = 1
    ∧ assertDataCompleteness
        (wkwRead disk2.store (hddPath cfg3 "/a") srcA1.input_bbox) = false := by
  refine ⟨by decide, by decide, by decide, by decide⟩

/-- C2 amended: `wkw_read_cached` returns the exact sub-slice of the cached
cube on a memory hit — voxel-identical to a direct uncached read when the
memory tier holds the data `fill_cache` put there — and on a memory-bbox
miss (with the path still present) falls back to the disk-cache path if its
header exists, *without any completeness check*, and otherwise to the
authoritative source.  (When the path is absent from the memory tier
entirely the call raises `KeyError`; that is claim C3.) -/
theorem C2_read_cached_equivalence (cfg : Config) (srcs : List DataSource)
    (store : Store) (disk : DiskState) (ram : RamCache) (k : Nat) (role : Role)
    (bb : BBox) (path : String) (absBB : BBox)
    (hpath : rolePath (getSrc srcs k) role = path)
    (habs : roleBBox (getSrc srcs k) role = absBB) :
    (∀ inner, ram path = some inner →
      inner absBB = some (wkwRead store path absBB) →
      bbContains absBB bb = true →
      wkwReadCached cfg srcs store disk ram k role bb =
        .ok (sliceArr (wkwRead store path absBB)
          ⟨bb.origin.x - absBB.origin.x, bb.origin.y - absBB.origin.y,
           bb.origin.z - absBB.origin.z⟩ bb.extent)
      ∧ NDArr.eqv
          (sliceArr (wkwRead store path absBB)
            ⟨bb.origin.x - absBB.origin.x, bb.origin.y - absBB.origin.y,
             bb.origin.z - absBB.origin.z⟩ bb.extent)
          (wkwRead store path bb))
    ∧ (∀ inner, ram path = some inner → inner absBB = none →
        disk.header (hddPath cfg path) = true →
        wkwReadCached cfg srcs store disk ram k role bb =
          .ok (wkwRead disk.store (hddPath cfg path) bb))
    ∧ (∀ inner, ram path = some inner → inner absBB = none →
        disk.header (hddPath cfg path) = false →
        wkwReadCached cfg srcs store disk ram k role bb =
          .ok (wkwRead store path bb)) := by
  refine ⟨?_, ?_, ?_⟩
  · intro inner h1 h2 _hsub
    constructor
    · simp only [wkwReadCached, hpath, habs, h1, h2]
    · constructor
      · rfl
      · intro ix hix
        obtain ⟨c1, x1, y1, z1, rfl⟩ := inShape_four hix
        show (wkwRead store path absBB).val
            [c1, bb.origin.x - absBB.origin.x + x1, bb.origin.y - absBB.origin.y + y1,
             bb.origin.z - absBB.origin.z + z1] =
          (wkwRead store path bb).val [c1, x1, y1, z1]
        simp only [wkwRead]
        have e1 : absBB.origin.x + (bb.origin.x - absBB.origin.x + x1) =
            bb.origin.x + x1 := by ring
        have e2 : absBB.origin.y + (bb.origin.y - absBB.origin.y + y1) =
            bb.origin.y + y1 := by ring
        have e3 : absBB.origin.z + (bb.origin.z - absBB.origin.z + z1) =
            bb.origin.z + z1 := by ring
        rw [e1, e2, e3]
  · intro inner h1 h2 hhdr
    simp [wkwReadCached, hpath, habs, h1, h2, hhdr]
  · intro inner h1 h2 hhdr
    simp [wkwReadCached, hpath, habs, h1, h2, hhdr]

/-- Witness for the amended C2: a concrete memory hit (cache filled from the
all-ones store) returns the slice and it is voxel-identical to the direct
read. -/
theorem C2_read_cached_equivalence_witness :
    rolePath (getSrc [srcA1] 0) Role.input = "/a"
    ∧ roleBBox (getSrc [srcA1] 0) Role.input = srcA1.input_bbox
    ∧ (wkwReadCached cfg3 [srcA1] store1 disk0 ram1 0 Role.input srcA1.input_bbox =
        .ok (sliceArr (wkwRead store1 "/a" srcA1.input_bbox)
          ⟨srcA1.input_bbox.origin.x - srcA1.input_bbox.origin.x,
           srcA1.input_bbox.origin.y - srcA1.input_bbox.origin.y,
           srcA1.input_bbox.origin.z - srcA1.input_bbox.origin.z⟩
          srcA1.input_bbox.extent)
      ∧ NDArr.eqv
          (sliceArr (wkwRead store1 "/a" srcA1.input_bbox)
            ⟨srcA1.input_bbox.origin.x - srcA1.input_bbox.origin.x,
             srcA1.input_bbox.origin.y - srcA1.input_bbox.origin.y,
             srcA1.input_bbox.origin.z - srcA1.input_bbox.origin.z⟩
            srcA1.input_bbox.extent)
          (wkwRead store1 "/a" srcA1.input_bbox)) :=
  ⟨rfl, rfl,
   (C2_read_cached_equivalence cfg3 [srcA1] store1 disk0 ram1
      0 Role.input srcA1.input_bbox "/a" srcA1.input_bbox rfl rfl).1
    inner1 rfl rfl (by decide)⟩

/-- C3: `wkw_read_cached` tests the memory tier with a non-short-circuiting
`&` whose right operand indexes `data_cache_input` by the path, so whenever
the path has no memory-tier entry — in particular in every
`cache_HDD=True, cache_RAM=False` configuration, where `fill_cache` never
writes to `data_cache_input` — the call raises `KeyError` instead of
falling back to the disk tier or the authoritative source. -/
theorem C3_missing_memory_entry_keyerror (cfg : Config) (store : Store)
    (disk : DiskState) (ram : RamCache) :
    (cfg.cache_RAM = false →
      ∀ path bb, (fillCache cfg store disk ram path bb).ram = ram)
    ∧ (∀ srcs k role bb, ram (rolePath (getSrc srcs k) role) = none →
        wkwReadCached cfg srcs store disk ram k role bb = .error "KeyError") := by
  constructor
  · intro hram path bb
    simp [fillCache, hram]
  · intro srcs k role bb h
    simp only [wkwReadCached, h]

/-- Witness for C3: with `cache_HDD=True, cache_RAM=False`, `fill_cache`
leaves the memory cache empty and the subsequent cached read raises
`KeyError`. -/
theorem C3_missing_memory_entry_keyerror_witness :
    cfg3.cache_RAM = false
    ∧ emptyRam (rolePath (getSrc [srcA1] 0) Role.input) = none
    ∧ (fillCache cfg3 store1 disk0 emptyRam "/a" srcA1.input_bbox).ram = emptyRam
    ∧ wkwReadCached cfg3 [srcA1] store1 disk0 emptyRam 0 Role.input srcA1.input_bbox =
        .error "KeyError" :=
  ⟨rfl, rfl,
   (C3_missing_memory_entry_keyerror cfg3 store1 disk0 emptyRam).1 rfl "/a"
     srcA1.input_bbox,
   (C3_missing_memory_entry_keyerror cfg3 store1 disk0 emptyRam).2 [srcA1] 0
     Role.input srcA1.input_bbox rfl⟩

/-- C8: when the disk tier is enabled and a cache entry exists, `fill_cache`
accepts the disk cube without re-fetching exactly when every one of its six
bounding faces holds a non-zero voxel; a cube with an all-zero face is
treated as incomplete and transparently re-fetched from the authoritative
source (the function is total — no error reaches the caller). -/
theorem C8_fill_cache_completeness (cfg : Config) (store : Store) (disk : DiskState)
    (ram : RamCache) (path : String) (bb : BBox)
    (hH : cfg.cache_HDD = true)
    (hhdr : disk.header (hddPath cfg path) = true) :
    ((fillCache cfg store disk ram path bb).refetched = false ↔
        SixFacesNonzero (wkwRead disk.store (hddPath cfg path) bb))
    ∧ (SixFacesNonzero (wkwRead disk.store (hddPath cfg path) bb) →
        (fillCache cfg store disk ram path bb).data =
          wkwRead disk.store (hddPath cfg path) bb)
    ∧ (¬ SixFacesNonzero (wkwRead disk.store (hddPath cfg path) bb) →
        (fillCache cfg store disk ram path bb).data = wkwRead store path bb) := by
  have hbridge : assertDataCompleteness (wkwRead disk.store (hddPath cfg path) bb) = true
      ↔ SixFacesNonzero (wkwRead disk.store (hddPath cfg path) bb) := by
    simp only [assertDataCompleteness, SixFacesNonzero, wkwRead, anyFaceX, anyFaceY,
      anyFaceZ, rangeAny, Bool.and_eq_true, List.any_eq_true, List.mem_range,
      decide_eq_true_eq, and_assoc]
  have hfR : (fillCache cfg store disk ram path bb).refetched =
      ! assertDataCompleteness (wkwRead disk.store (hddPath cfg path) bb) := by
    simp [fillCache, hH, hhdr]
  have hfD : (fillCache cfg store disk ram path bb).data =
      (if assertDataCompleteness (wkwRead disk.store (hddPath cfg path) bb)
        then wkwRead disk.store (hddPath cfg path) bb else wkwRead store path bb) := by
    simp [fillCache, hH, hhdr]
  refine ⟨?_, ?_, ?_⟩
  · rw [hfR, ← hbridge]
    cases assertDataCompleteness (wkwRead disk.store (hddPath cfg path) bb) <;> simp
  · intro hsf
    rw [hfD, if_pos (hbridge.mpr hsf)]
  · intro hsf
    rw [hfD, if_neg (fun hc => hsf (hbridge.mp hc))]

/-- Witness for C8: a concrete all-ones disk cube passes the six-face check
and is served without re-fetch. -/
theorem C8_fill_cache_completeness_witness :
    cfg3.cache_HDD = true
    ∧ disk1.header (hddPath cfg3 "/a") = true
    ∧ ((fillCache cfg3 store1 disk1 emptyRam "/a" srcA1.input_bbox).refetched = false ↔
        SixFacesNonzero (wkwRead disk1.store (hddPath cfg3 "/a") srcA1.input_bbox))
    ∧ (SixFacesNonzero (wkwRead disk1.store (hddPath cfg3 "/a") srcA1.input_bbox) →
        (fillCache cfg3 store1 disk1 emptyRam "/a" srcA1.input_bbox).data =
          wkwRead disk1.store (hddPath cfg3 "/a") srcA1.input_bbox) :=
  ⟨rfl, rfl,
   (C8_fill_cache_completeness cfg3 store1 disk1 emptyRam "/a" srcA1.input_bbox
      rfl rfl).1,
   (C8_fill_cache_completeness cfg3 store1 disk1 emptyRam "/a" srcA1.input_bbox
      rfl rfl).2.1⟩

/-! ### Sample assembler (C7, C9) -/

theorem except_bind_ok {α β : Type} (a : α) (f : α → Except String β) :
    (Bind.bind (Except.ok a) f : Except String β) = f a := rfl

theorem except_bind_error {α β : Type} (e : String) (f : α → Except String β) :
    (Bind.bind (Except.error e) f : Except String β) = Except.error e := rfl

theorem NDArr_eqv_refl (a : NDArr) : NDArr.eqv a a := ⟨rfl, fun _ _ => rfl⟩

theorem wkwReadCached_ok_shape (cfg : Config) (srcs : List DataSource) (store : Store)
    (disk : DiskState) (ram : RamCache) (k : Nat) (role : Role) (bb : BBox) (a : NDArr)
    (h : wkwReadCached cfg srcs store disk ram k role bb = .ok a) :
    a.shape.length = 4 ∧ a.shape.getD 3 0 = bb.extent.z.toNat := by
  simp only [wkwReadCached] at h
  split at h
  · simp at h
  · split at h
    · simp only [Except.ok.injEq] at h
      subst h
      simp [sliceArr]
    · split at h <;>
        (simp only [Except.ok.injEq] at h; subst h; simp [wkwRead])

theorem readRole_ok_shape (cfg : Config) (srcs : List DataSource) (store : Store)
    (disk : DiskState) (ram : RamCache) (k : Nat) (role : Role) (bb : BBox) (a : NDArr)
    (h : readRole cfg srcs store disk ram k role bb = .ok a) :
    a.shape.length = 4 ∧ a.shape.getD 3 0 = bb.extent.z.toNat := by
  unfold readRole at h
  split at h
  · exact wkwReadCached_ok_shape _ _ _ _ _ _ _ _ _ h
  · simp only [Except.ok.injEq] at h
    subst h
    simp [wkwRead]

theorem inShape_three {p q r : Nat} {ix : List Int} (h : inShape [p, q, r] ix = true) :
    ∃ i j k, ix = [i, j, k]
      ∧ 0 ≤ i ∧ i < (p : Int) ∧ 0 ≤ j ∧ j < (q : Int) ∧ 0 ≤ k ∧ k < (r : Int) := by
  match ix with
  | [i, j, k] =>
    simp only [inShape, Bool.and_eq_true, decide_eq_true_eq] at h
    refine ⟨i, j, k, rfl, ?_, ?_, ?_, ?_, ?_, ?_⟩ <;> tauto
  | [] => simp [inShape] at h
  | [_] => simp [inShape] at h
  | [_, _] => simp [inShape] at h
  | _ :: _ :: _ :: _ :: _ => simp [inShape] at h

theorem padArr_zeros_ok (a : NDArr) (h3 : a.shape.length = 3) :
    ∃ b, padArr [0, 0, 0] a = .ok b ∧ b.shape = a.shape ∧ NDArr.eqv b a := by
  obtain ⟨p, q, r, hs⟩ := List.length_eq_three.mp h3
  have hlen : ([0, 0, 0] : List Int).length = a.shape.length := by rw [h3]; rfl
  have hnn : (([0, 0, 0] : List Int).all (fun x => decide (0 ≤ x))) = true := by decide
  have hshape : List.zipWith (fun d wi => d + 2 * wi.toNat) a.shape ([0, 0, 0] : List Int)
      = a.shape := by
    rw [hs]
    simp
  unfold padArr
  rw [if_pos hlen, if_pos hnn]
  refine ⟨_, rfl, hshape, ?_⟩
  constructor
  · exact hshape
  · intro ix hix
    have hix' : inShape a.shape ix = true := by rwa [hshape] at hix
    rw [hs] at hix'
    obtain ⟨i, j, k, rfl, hi0, hip, hj0, hjq, hk0, hkr⟩ := inShape_three hix'
    have hin : padInR a.shape [0, 0, 0] [i, j, k] = true := by
      rw [hs]
      simp only [padInR, Bool.and_eq_true, decide_eq_true_eq]
      refine ⟨⟨hi0, ?_⟩, ⟨hj0, ?_⟩, ⟨hk0, ?_⟩, trivial⟩ <;> omega
    simp [hin]

theorem padArr_rank_mismatch (w : List Int) (a : NDArr) (h : w.length ≠ a.shape.length) :
    padArr w a = .error "ValueError: unable to broadcast pad width to array rank" := by
  unfold padArr
  rw [if_neg h]

theorem maybeSqueeze_len3 (z : Int) (a : NDArr) (h4 : a.shape.length = 4)
    (hz : z = 1) (hg : a.shape.getD 3 0 = 1) :
    (maybeSqueeze z a).shape.length = 3 := by
  unfold maybeSqueeze
  rw [if_pos ⟨hz, by omega, hg⟩]
  simp only [squeezeAx3, List.length_take]
  omega

theorem maybeSqueeze_id_of_zne (z : Int) (a : NDArr) (hz : z ≠ 1) :
    maybeSqueeze z a = a := by
  unfold maybeSqueeze
  rw [if_neg (fun hc => hz hc.1)]

theorem maybeSqueeze_id_of_short (z : Int) (a : NDArr) (h : ¬ 3 < a.shape.length) :
    maybeSqueeze z a = a := by
  unfold maybeSqueeze
  rw [if_neg (fun hc => h hc.2.1)]

/-- In the self-supervised tail, whenever a sample is produced its target is
voxel-identical to its input: the pad widths are all zero (equal input and
target shapes), so padding is a value-preserving copy, and the squeeze never
fires (3-d input, or non-singleton depth). -/
theorem assembleSameTarget_eqv (cfg : Config) (inp : NDArr) (idx : Nat)
    (hpw : padWidths cfg = [0, 0, 0])
    (hcase : inp.shape.length = 3 ∨ cfg.output_shape.z ≠ 1) :
    ∀ s, assembleSameTarget cfg inp idx = .ok s → NDArr.eqv s.target s.input := by
  intro s hs
  unfold assembleSameTarget at hs
  split at hs
  · simp at hs
  · rename_i t1 heq
    simp only [Except.ok.injEq] at hs
    subst hs
    show NDArr.eqv (maybeSqueeze cfg.output_shape.z t1) inp
    cases hpt : cfg.pad_target with
    | false =>
      rw [hpt, if_neg Bool.false_ne_true] at heq
      simp only [Except.ok.injEq] at heq
      subst heq
      rcases hcase with h3 | hz
      · rw [maybeSqueeze_id_of_short _ _ (by omega)]
        exact NDArr_eqv_refl inp
      · rw [maybeSqueeze_id_of_zne _ _ hz]
        exact NDArr_eqv_refl inp
    | true =>
      rw [hpt, if_pos rfl] at heq
      unfold wkwPad at heq
      rw [hpw] at heq
      have h3 : inp.shape.length = 3 := by
        by_contra hne
        rw [padArr_rank_mismatch _ _
          (by simp only [List.length_cons, List.length_nil]; omega)] at heq
        simp at heq
      obtain ⟨b, hb, hbs, hbe⟩ := padArr_zeros_ok inp h3
      rw [hb] at heq
      simp only [Except.ok.injEq] at heq
      subst heq
      rw [maybeSqueeze_id_of_short _ _ (by rw [hbs]; omega)]
      exact hbe

/-- The input tensor of `get_ordered_sample` (normalize, squeeze, transform
applied to the raw read) either has rank 3 (singleton-depth window, so the
squeeze fired) or the configured target depth is not a singleton. -/
theorem inp_shape_cases (cfg : Config) (trainInds : List Nat) (tf1 : NDArr → NDArr)
    (idx : Nat) (raw : NDArr) (m s : ℚ)
    (htf1 : ∀ a, (tf1 a).shape = a.shape)
    (hlen4 : raw.shape.length = 4)
    (hgetD : raw.shape.getD 3 0 = cfg.input_shape.z.toNat)
    (hzz : cfg.input_shape.z = cfg.output_shape.z) :
    (if cfg.hasTransforms && trainInds.contains idx then
        tf1 (maybeSqueeze cfg.input_shape.z
          (if cfg.normalize then normalizeArr raw m s else raw))
      else maybeSqueeze cfg.input_shape.z
          (if cfg.normalize then normalizeArr raw m s else raw)).shape.length = 3
    ∨ cfg.output_shape.z ≠ 1 := by
  have hnshape : (if cfg.normalize then normalizeArr raw m s else raw).shape = raw.shape := by
    cases cfg.normalize <;> simp [normalizeArr]
  by_cases hz1 : cfg.input_shape.z = 1
  · left
    have hsq : (maybeSqueeze cfg.input_shape.z
        (if cfg.normalize then normalizeArr raw m s else raw)).shape.length = 3 := by
      apply maybeSqueeze_len3
      · rw [hnshape]; exact hlen4
      · exact hz1
      · rw [hnshape, hgetD, hz1]; rfl
    cases hflag : (cfg.hasTransforms && trainInds.contains idx) <;>
      simp [htf1, hsq]
  · right
    rw [← hzz]
    exact hz1

/-- C9 (code-bug evidence): with `pad_target=True` and an independently
fetched target window, `get_ordered_sample` raises a `ValueError` inside
`np.pad` — the pad helper passes three per-axis width pairs but the fetched
wkw window is a channel-first 4-d array — instead of returning the target
zero-padded to the input window shape as the docstring describes. -/
theorem C9_pad_target_raises_valueerror :
    cfg9.pad_target = true
    ∧ (getSrc [src9] 0).input_path ≠ (getSrc [src9] 0).target_path
    ∧ (padWidths cfg9).length = 3
    ∧ (wkwRead store1 "/b"
        (getBboxForSampleIdx cfg9 [src9] ((0 : Nat) : Int) Role.target).2).shape.length = 4
    ∧ getOrderedSample cfg9 [src9] store1 disk0 emptyRam [] id id 0 =
        .error "ValueError: unable to broadcast pad width to array rank" := by
  refine ⟨rfl, by decide, by decide, by decide, by rfl⟩

/-- C7: in the self-supervised configuration (equal input/target path and
computed bbox, non-scalar target), the assembled sample's target is
voxel-identical to its input: the configured augmentation is applied once
(to the input, for training indices) and the target is a copy of that
result; the second transform draw is never consulted, so the target is
never an independent random re-draw.  (`tf1` is assumed shape-preserving,
as every transform in `genEM3.data.transforms` is.) -/
theorem C7_self_supervised_shared_transform (cfg : Config) (srcs : List DataSource)
    (store : Store) (disk : DiskState) (ram : RamCache) (trainInds : List Nat)
    (tf1 tf2 tf2' : NDArr → NDArr) (idx : Nat)
    (hpath : (getSrc srcs (getBboxForSampleIdx cfg srcs (idx : Int) Role.input).1).input_path =
        (getSrc srcs (getBboxForSampleIdx cfg srcs (idx : Int) Role.input).1).target_path)
    (hbb : (getBboxForSampleIdx cfg srcs (idx : Int) Role.input).2 =
        (getBboxForSampleIdx cfg srcs (idx : Int) Role.target).2)
    (hbin : (getSrc srcs
        (getBboxForSampleIdx cfg srcs (idx : Int) Role.input).1).target_binary ≠ 1)
    (htf1 : ∀ a, (tf1 a).shape = a.shape) :
    getOrderedSample cfg srcs store disk ram trainInds tf1 tf2 idx =
      getOrderedSample cfg srcs store disk ram trainInds tf1 tf2' idx
    ∧ (∀ s, getOrderedSample cfg srcs store disk ram trainInds tf1 tf2 idx = .ok s →
        NDArr.eqv s.target s.input) := by
  have hk : (getBboxForSampleIdx cfg srcs (idx : Int) Role.target).1 =
      (getBboxForSampleIdx cfg srcs (idx : Int) Role.input).1 := rfl
  have hext : (⟨cfg.input_shape.x, cfg.input_shape.y, cfg.input_shape.z⟩ : V3) =
      ⟨cfg.output_shape.x, cfg.output_shape.y, cfg.output_shape.z⟩ :=
    congrArg BBox.extent hbb
  have hx : cfg.input_shape.x = cfg.output_shape.x := congrArg V3.x hext
  have hy : cfg.input_shape.y = cfg.output_shape.y := congrArg V3.y hext
  have hz : cfg.input_shape.z = cfg.output_shape.z := congrArg V3.z hext
  have hpw : padWidths cfg = [0, 0, 0] := by
    unfold padWidths
    rw [hx, hy, hz]
    simp [floorHalf]
  have hbez : (getBboxForSampleIdx cfg srcs (idx : Int) Role.input).2.extent.z =
      cfg.input_shape.z := rfl
  simp only [getOrderedSample]
  cases hread : readRole cfg srcs store disk ram
      (getBboxForSampleIdx cfg srcs (idx : Int) Role.input).1 Role.input
      (getBboxForSampleIdx cfg srcs (idx : Int) Role.input).2 with
  | error e =>
    refine ⟨rfl, ?_⟩
    intro s hs
    rw [except_bind_error] at hs
    simp at hs
  | ok raw =>
    obtain ⟨hlen4, hgetD3⟩ := readRole_ok_shape _ _ _ _ _ _ _ _ _ hread
    rw [hbez] at hgetD3
    have hcond : (getSrc srcs (getBboxForSampleIdx cfg srcs (idx : Int) Role.input).1).input_path =
        (getSrc srcs (getBboxForSampleIdx cfg srcs (idx : Int) Role.input).1).target_path
        ∧ (getBboxForSampleIdx cfg srcs (idx : Int) Role.input).2 =
          (getBboxForSampleIdx cfg srcs (idx : Int) Role.target).2 := ⟨hpath, hbb⟩
    simp only [except_bind_ok, hk, if_neg hbin, if_pos hcond]
    refine ⟨trivial, ?_⟩
    intro s hs
    exact assembleSameTarget_eqv cfg _ idx hpw
      (inp_shape_cases cfg trainInds tf1 idx raw _ _ htf1 hlen4 hgetD3 hz) s hs

/-- Witness for C7 at the concrete self-supervised source `srcA1`
(input path equals target path, equal bboxes, volumetric target): the
result is independent of the target draw (`tfZero` discards its argument)
and any produced sample has target voxels equal to its input voxels. -/
theorem C7_self_supervised_shared_transform_witness :
    ((getSrc [srcA1] (getBboxForSampleIdx cfgA [srcA1] ((0 : Nat) : Int) Role.input).1).input_path =
        (getSrc [srcA1] (getBboxForSampleIdx cfgA [srcA1] ((0 : Nat) : Int) Role.input).1).target_path
      ∧ (getBboxForSampleIdx cfgA [srcA1] ((0 : Nat) : Int) Role.input).2 =
          (getBboxForSampleIdx cfgA [srcA1] ((0 : Nat) : Int) Role.target).2
      ∧ (getSrc [srcA1]
          (getBboxForSampleIdx cfgA [srcA1] ((0 : Nat) : Int) Role.input).1).target_binary ≠ 1)
    ∧ (getOrderedSample cfgA [srcA1] store1 disk0 emptyRam [] id id 0 =
        getOrderedSample cfgA [srcA1] store1 disk0 emptyRam [] id tfZero 0
      ∧ (∀ s, getOrderedSample cfgA [srcA1] store1 disk0 emptyRam [] id id 0 = .ok s →
          NDArr.eqv s.target s.input)) :=
  ⟨⟨by decide, by decide, by decide⟩,
   C7_self_supervised_shared_transform cfgA [srcA1] store1 disk0 emptyRam [] id id
     tfZero 0 (by decide) (by decide) (by decide) (fun _ => rfl)⟩

/-! ### Data-source registry round trip (C10) -/

theorem dictUpsert_not_mem {V A : Type} [DecidableEq V] (k : V) (v : A) :
    ∀ (d : List (V × A)), ¬ k ∈ d.map Prod.fst → dictUpsert k v d = d ++ [(k, v)] := by
  intro d
  induction d with
  | nil => intro _; rfl
  | cons kv rest ih =>
    intro h
    obtain ⟨k0, v0⟩ := kv
    simp only [List.map_cons, List.mem_cons] at h
    push_neg at h
    unfold dictUpsert
    rw [if_neg (fun hc => h.1 hc.symm)]
    rw [ih h.2]
    simp

theorem convert_ds_to_dict_nodup {V : Type} [DecidableEq V] :
    ∀ (srcs : List (JDataSource V)) (acc : List (V × (DSField → Option V))),
      (acc.map Prod.fst ++ srcs.map (fun d => d.fields DSField.id)).Nodup →
      srcs.foldl (fun d s => dictUpsert (s.fields DSField.id) (asdict s) d) acc =
        acc ++ srcs.map (fun d => (d.fields DSField.id, asdict d)) := by
  intro srcs
  induction srcs with
  | nil =>
    intro acc _
    simp
  | cons s ss ih =>
    intro acc hnd
    simp only [List.map_cons] at hnd
    have hmem : ¬ s.fields DSField.id ∈ acc.map Prod.fst := by
      rw [List.nodup_append] at hnd
      intro hc
      exact hnd.2.2 hc (List.mem_cons_self _ _)
    simp only [List.foldl_cons]
    rw [dictUpsert_not_mem _ _ acc hmem,
      ih (acc ++ [(s.fields DSField.id, asdict s)]) (by
        rw [List.map_append, List.append_assoc]
        simpa using hnd)]
    simp

theorem list_map_id_of {α : Type} (l : List α) (f : α → α) (h : ∀ x ∈ l, f x = x) :
    l.map f = l := by
  induction l with
  | nil => rfl
  | cons x xs ih =>
    simp only [List.map_cons]
    rw [h x (List.mem_cons_self _ _), ih (fun y hy => h y (List.mem_cons_of_mem _ hy))]

/-- Counterexample to C10: on the empty descriptor list,
`ds_find_shared_properties` indexes the first element of an empty key list
and raises `IndexError`, so the short-form round trip fails instead of
returning the (empty) original. -/
theorem C10_empty_list_raises_counterexample :
    Except.map (read_short_ds_json (0 : Int))
      (convert_to_short_ds ([] : List (JDataSource Int))) = .error "IndexError" := rfl

/-- C10 amended: for every *non-empty* list of data sources with pairwise
distinct ids (the spec's data-model invariant; duplicate ids collapse
entries in the Python dict keyed by `datasource_(id)`), factoring the
shared properties out, writing the short dict and reading it back with
`read_short_ds_json` reproduces exactly the original field values,
independent of field order (fields are modeled as a name-indexed map). -/
theorem C10_short_ds_roundtrip {V : Type} [DecidableEq V] (dflt : V)
    (srcs : List (JDataSource V)) (hne : srcs ≠ [])
    (hid : (srcs.map (fun d => d.fields DSField.id)).Nodup) :
    Except.map (read_short_ds_json dflt) (convert_to_short_ds srcs) = .ok srcs := by
  have hdict : convert_ds_to_dict srcs =
      srcs.map (fun d => (d.fields DSField.id, asdict d)) := by
    have h := convert_ds_to_dict_nodup srcs [] (by simpa using hid)
    simpa [convert_ds_to_dict] using h
  obtain ⟨d0, rest, rfl⟩ := List.exists_cons_of_ne_nil hne
  rw [List.map_cons] at hdict
  unfold convert_to_short_ds ds_find_shared_properties
  rw [hdict]
  simp only [Except.map]
  congr 1
  unfold read_short_ds_json
  have hL : ((d0.fields DSField.id, asdict d0) ::
      List.map (fun d => (d.fields DSField.id, asdict d)) rest) =
      List.map (fun d => (d.fields DSField.id, asdict d)) (d0 :: rest) := by
    rw [List.map_cons]
  dsimp only
  rw [hL, List.map_map, List.map_map]
  apply list_map_id_of
  intro d hd
  simp only [Function.comp]
  cases d with
  | mk df =>
    unfold dsOfDict
    congr 1
    funext f
    by_cases hall : ((List.map (fun d => (d.fields DSField.id, asdict d)) (d0 :: rest)).all
        fun kv => decide (kv.2 f = asdict d0 f)) = true
    · have hdmem : ((⟨df⟩ : JDataSource V).fields DSField.id, asdict (⟨df⟩ : JDataSource V)) ∈
          List.map (fun d => (d.fields DSField.id, asdict d)) (d0 :: rest) :=
        List.mem_map_of_mem _ hd
      have heqd := List.all_eq_true.mp hall _ hdmem
      simp only [decide_eq_true_eq] at heqd
      have hsome : some (df f) = some (d0.fields f) := heqd
      have hval : d0.fields f = df f := (Option.some_inj.mp hsome).symm
      dsimp only
      rw [if_pos hall]
      simp only [asdict, Option.getD_some]
      exact hval
    · simp only [if_neg hall]
      simp [asdict]

/-- Witness for the amended C10 at two concrete descriptors with distinct
ids and some shared field values. -/
theorem C10_short_ds_roundtrip_witness :
    ([jds1, jds2] : List (JDataSource Int)) ≠ []
    ∧ ([jds1, jds2].map (fun d => d.fields DSField.id)).Nodup
    ∧ Except.map (read_short_ds_json (0 : Int)) (convert_to_short_ds [jds1, jds2]) =
        .ok [jds1, jds2] :=
  ⟨by simp, by decide, C10_short_ds_roundtrip 0 [jds1, jds2] (by simp) (by decide)⟩

end GenEM3
